import Mathlib

/-!
Verification of the "when" date/time library: the reference-date template
substitution engine (when/substitutions.py), the immutable-instant /
mutable-timezone-view value type (when/when.py, class When), the
reference-template parser (When.from_string and its helpers), and the
duration type (when/while_.py, class While).

Datetimes are embedded as calendrical field records together with a
microsecond timestamp on the proleptic Gregorian calendar (the standard
calendar primitive the spec treats as external); the timezone registry
(module when/timezones.py, absent from the sources) is modelled from the
spec as a finite name-to-UTC-offset mapping with localize/convert given by
offset arithmetic.
-/

namespace WhenLib

/-! ### Decimal digits and zero-padded renderings -/

/-- Character of a single decimal digit value. -/
def dChar (n : Nat) : Char := Char.ofNat (48 + n)

/-- Numeric value of a decimal digit character. -/
def dVal (c : Char) : Nat := c.toNat - 48

/-- Decimal digit test, as used by the regex class backslash-d. -/
def isDig (c : Char) : Bool := 48 ≤ c.toNat && c.toNat ≤ 57

/-- Zero-padded two-digit rendering (strftime %m, %d, %H, %M, %S, %y). -/
def pad2 (n : Nat) : List Char := [dChar (n / 10), dChar (n % 10)]

/-- Zero-padded four-digit rendering (strftime %Y). -/
def pad4 (n : Nat) : List Char :=
  [dChar (n / 1000), dChar (n / 100 % 10), dChar (n / 10 % 10), dChar (n % 10)]

/-- Zero-padded six-digit rendering (strftime %f). -/
def pad6 (n : Nat) : List Char :=
  [dChar (n / 100000), dChar (n / 10000 % 10), dChar (n / 1000 % 10),
   dChar (n / 100 % 10), dChar (n / 10 % 10), dChar (n % 10)]

/-- Value of a decimal digit string, as Python int() computes it on a
string of digits (possibly with leading zeros). -/
def strToNat (s : List Char) : Nat := s.foldl (fun a c => 10 * a + dVal c) 0

/-! ### The Gregorian calendar primitive

Civil calendrical fields and their conversion to a linear day count /
microsecond timestamp, embedding the fixed-field calendrical arithmetic of
the standard datetime primitive. Day zero of the count is 0000-03-01 of
the proleptic Gregorian calendar, so that all dates of years 1..9999 (the
datetime.MINYEAR..MAXYEAR range) have nonnegative day numbers. -/

/-- Calendrical fields of a datetime value (year, month, day, hour,
minute, second, microsecond). -/
structure Fields where
  year : Nat
  month : Nat
  day : Nat
  hour : Nat
  minute : Nat
  second : Nat
  micro : Nat
deriving DecidableEq, Repr

/-- Gregorian leap-year rule. -/
def isLeap (y : Nat) : Bool := (y % 4 == 0 && y % 100 != 0) || y % 400 == 0

/-- Length of a month in a given year. -/
def daysInMonth (y m : Nat) : Nat :=
  if m = 2 then (if isLeap y then 29 else 28)
  else if m = 4 ∨ m = 6 ∨ m = 9 ∨ m = 11 then 30
  else 31

/-- Validity of calendrical fields, exactly the ranges the datetime
constructor accepts. -/
def ValidFields (F : Fields) : Prop :=
  1 ≤ F.year ∧ F.year ≤ 9999 ∧ 1 ≤ F.month ∧ F.month ≤ 12 ∧
  1 ≤ F.day ∧ F.day ≤ daysInMonth F.year F.month ∧
  F.hour ≤ 23 ∧ F.minute ≤ 59 ∧ F.second ≤ 59 ∧ F.micro ≤ 999999

instance (F : Fields) : Decidable (ValidFields F) := by
  unfold ValidFields; infer_instance

/-- Shifted year of the day-count computation (the year of the civil date
in the March-first calendar). -/
def dfc_ys (y m : Nat) : Nat := if m ≤ 2 then y - 1 else y

/-- Day of the shifted year of a civil date. -/
def dfc_doy (m d : Nat) : Nat := (153 * ((m + 9) % 12) + 2) / 5 + d - 1

/-- Day of the 400-year era of a civil date. -/
def dfc_doe (y m d : Nat) : Nat :=
  dfc_ys y m % 400 * 365 + dfc_ys y m % 400 / 4 - dfc_ys y m % 400 / 100 + dfc_doy m d

/-- Day count of a civil date, counted from 0000-03-01. -/
def daysFromCivil (y m d : Nat) : Nat := dfc_ys y m / 400 * 146097 + dfc_doe y m d

/-- Era of a day count. -/
def cfd_era (days : Nat) : Nat := days / 146097

/-- Day of era of a day count. -/
def cfd_doe (days : Nat) : Nat := days % 146097

/-- Year of era of a day count. -/
def cfd_yoe (days : Nat) : Nat :=
  (cfd_doe days - cfd_doe days / 1460 + cfd_doe days / 36524 - cfd_doe days / 146096) / 365

/-- Day of the shifted year of a day count. -/
def cfd_doy (days : Nat) : Nat :=
  cfd_doe days - (365 * cfd_yoe days + cfd_yoe days / 4 - cfd_yoe days / 100)

/-- Shifted month index of a day count. -/
def cfd_mp (days : Nat) : Nat := (5 * cfd_doy days + 2) / 153

/-- Day of month of a day count. -/
def cfd_d (days : Nat) : Nat := cfd_doy days - (153 * cfd_mp days + 2) / 5 + 1

/-- Civil month of a day count. -/
def cfd_m (days : Nat) : Nat :=
  if cfd_mp days < 10 then cfd_mp days + 3 else cfd_mp days - 9

/-- Civil year of a day count. -/
def cfd_y (days : Nat) : Nat :=
  if cfd_m days ≤ 2 then cfd_yoe days + cfd_era days * 400 + 1
  else cfd_yoe days + cfd_era days * 400

/-- Civil date of a day count, inverse of daysFromCivil. -/
def civilFromDays (days : Nat) : Nat × Nat × Nat := (cfd_y days, cfd_m days, cfd_d days)

/-- Microsecond timestamp of calendrical fields. -/
def tsOfFields (F : Fields) : Nat :=
  daysFromCivil F.year F.month F.day * 86400000000 +
    (F.hour * 3600 + F.minute * 60 + F.second) * 1000000 + F.micro

/-- Microsecond-of-second part of a timestamp. -/
def fotUs (n : Nat) : Nat := n % 1000000

/-- Second-of-minute part of a timestamp. -/
def fotS (n : Nat) : Nat := n / 1000000 % 60

/-- Minute-of-hour part of a timestamp. -/
def fotMi (n : Nat) : Nat := n / 1000000 / 60 % 60

/-- Hour-of-day part of a timestamp. -/
def fotH (n : Nat) : Nat := n / 1000000 / 60 / 60 % 24

/-- Day-count part of a timestamp. -/
def fotDays (n : Nat) : Nat := n / 1000000 / 60 / 60 / 24

/-- Calendrical fields of a microsecond timestamp. -/
def fieldsOfTs (n : Nat) : Fields :=
  ⟨(civilFromDays (fotDays n)).1, (civilFromDays (fotDays n)).2.1,
   (civilFromDays (fotDays n)).2.2, fotH n, fotMi n, fotS n, fotUs n⟩

set_option maxHeartbeats 4000000

/-! ### Timezone registry and the When value

Modelled from the spec: the timezone registry (the when/timezones.py
module imported by when/when.py is not among the sources; spec sections 2
and 6 treat it as an external name-to-zone mapping offering
resolve/localize/convert). Zones are modelled as fixed UTC offsets in
minutes; localize subtracts the offset from the naive civil timestamp to
obtain the UTC anchor, convert adds the target offset, and pytz normalize
is the identity on fixed-offset zones. DST disambiguation is out of scope
(the dst_if_ambiguous flag is accepted and ignored by the model). -/
def timezones : List (String × Int) :=
  [("utc", 0), ("America/New_York", -240), ("America/Los_Angeles", -420),
   ("America/Chicago", -300)]

/-- Offset of a registry timezone in minutes, none for an unknown name. -/
def offMinutes (tz : String) : Option Int := (timezones.find? (fun p => p.1 == tz)).map (·.2)

/-- Offset of a registry timezone in microseconds. -/
def offUsec (tz : String) : Int := (offMinutes tz).getD 0 * 60000000

/-- Error kinds raised by the library, as the spec section 7 taxonomy
names them: invalidTimezone is the ValueError of the When constructor for
a missing or unknown timezone, invalidValue the ValueError of the datetime
constructor for out-of-range fields, typeError the TypeError of calling
datetime with a missing (None) field, parsing the ParsingError, ambiguous
the pytz.AmbiguousTimeError of conflicting reconciliation, missingCentury
the error raised at the 2-digit-year-without-century site of
_process_year (the code raises there via the expression pytz.ValueError(),
itself erroneous, so an exception propagates in any case), keyError the
KeyError of an unknown registry or table key, attributeError the
AttributeError of While.__getattr__. -/
inductive Err where
  | invalidTimezone
  | invalidValue
  | typeError
  | parsing
  | ambiguous
  | missingCentury
  | keyError
  | attributeError
deriving DecidableEq, Repr

instance : DecidableEq (Except Err ℚ) := fun a b =>
  match a, b with
  | .error x, .error y =>
    if h : x = y then .isTrue (by rw [h]) else .isFalse (fun hc => h (by injection hc))
  | .ok x, .ok y =>
    if h : x = y then .isTrue (by rw [h]) else .isFalse (fun hc => h (by injection hc))
  | .error _, .ok _ => .isFalse (fun hc => Except.noConfusion hc)
  | .ok _, .error _ => .isFalse (fun hc => Except.noConfusion hc)

/-- The When instant value: the localized view datetime (civil fields plus
timezone name, mirroring the _datetime and _timezone attributes), the
UTC-anchored instant as a microsecond timestamp (mirroring _utc), and the
cached formatting substitution mapping (mirroring _format_substitutor). -/
structure When where
  viewFields : Fields
  tzName : String
  utcTS : Int
  cache : Option (List (List Char × List Char))
deriving DecidableEq, Repr

/-- The When constructor (When.__init__): checks the timezone is supplied
and known, fails with TypeError when a calendrical argument is None,
validates the ranges as the datetime constructor does, localizes the naive
civil fields in the timezone and stores the UTC anchor, the view and an
empty format cache. -/
def whenInit (y m d h mi s us : Option Int) (tz : Option String) (dst : Option Bool) :
    Except Err When :=
  match tz with
  | none => .error .invalidTimezone
  | some tzn =>
    if (offMinutes tzn).isNone then .error .invalidTimezone
    else
      match y, m, d, h, mi, s, us with
      | some yv, some mv, some dv, some hv, some miv, some sv, some usv =>
        if 1 ≤ yv ∧ yv ≤ 9999 ∧ 1 ≤ mv ∧ mv ≤ 12 ∧
            1 ≤ dv ∧ dv ≤ (daysInMonth yv.toNat mv.toNat : Int) ∧
            0 ≤ hv ∧ hv ≤ 23 ∧ 0 ≤ miv ∧ miv ≤ 59 ∧ 0 ≤ sv ∧ sv ≤ 59 ∧
            0 ≤ usv ∧ usv ≤ 999999 then
          .ok { viewFields := ⟨yv.toNat, mv.toNat, dv.toNat, hv.toNat, miv.toNat,
                               sv.toNat, usv.toNat⟩,
                tzName := tzn,
                utcTS := (tsOfFields ⟨yv.toNat, mv.toNat, dv.toNat, hv.toNat, miv.toNat,
                                      sv.toNat, usv.toNat⟩ : Int) - offUsec tzn,
                cache := none }
        else .error .invalidValue
      | _, _, _, _, _, _, _ => .error .typeError

/-- The timezone setter (property When.timezone, setter branch): looks the
new zone up (KeyError on an unknown name), re-expresses the unchanged UTC
anchor in the new zone as the view, stores the new name. The Python
setter then assigns None to a misspelled attribute _format_substitor, a
write to a fresh attribute which leaves the _format_substitutor cache in
place, so the model keeps the cache unchanged. -/
def setTimezone (w : When) (tz : String) : Except Err When :=
  match offMinutes tz with
  | none => .error .keyError
  | some _ =>
    .ok { viewFields := fieldsOfTs (w.utcTS + offUsec tz).toNat,
          tzName := tz, utcTS := w.utcTS, cache := w.cache }

/-- UTC-anchored calendrical fields of a When, the tuple the utc-view
property exposes and _immutable_attributes_tuple collects. -/
def utcFieldsOf (w : When) : Fields := fieldsOfTs w.utcTS.toNat

/-- Equality of When values (When.__eq__): comparison of the UTC-anchored
field tuples. -/
def whenEq (w1 w2 : When) : Bool := utcFieldsOf w1 == utcFieldsOf w2

/-- Deterministic hash of a field tuple, standing for the Python hash of
the 7-tuple of field integers. -/
def hashFields (F : Fields) : Nat :=
  ((((((F.year * 31 + F.month) * 31 + F.day) * 31 + F.hour) * 31 + F.minute) * 31
    + F.second) * 31 + F.micro)

/-- Hash of a When (When.__hash__): hash of the UTC-anchored field tuple. -/
def whenHash (w : When) : Nat := hashFields (utcFieldsOf w)

/-! ### The substitution engine (when/substitutions.py, class Substitutor)

The Substitutor sorts the mapping keys by the pair (length, string) in
reverse, escapes each token and joins them into one alternation regex, and
substitutes in a single left-to-right pass: at each position the first
token of the sorted list that matches is consumed and replaced, and
replacement text is never rescanned. The scan below is that single pass
over an alternation of literal tokens. -/

/-- Lexicographic string order on code points, as Python compares strings. -/
def lexLe : List Char → List Char → Bool
  | [], _ => true
  | _ :: _, [] => false
  | a :: as, b :: bs =>
    if a.toNat < b.toNat then true
    else if b.toNat < a.toNat then false
    else lexLe as bs

/-- Sort key comparison of Substitutor.__init__: token a precedes token b
when the pair (length a, a) is at least (length b, b), giving descending
length with descending lexicographic tie-break (sorted with reverse). -/
def keyGe (a b : List Char) : Bool :=
  if b.length < a.length then true
  else if a.length < b.length then false
  else lexLe b a

/-- Insertion into a keyGe-sorted token list. -/
def insertTok (x : List Char) : List (List Char) → List (List Char)
  | [] => [x]
  | y :: ys => if keyGe x y then x :: y :: ys else y :: insertTok x ys

/-- The token ordering of Substitutor.__init__: sorted by (length, token)
in reverse. -/
def sortTokens : List (List Char) → List (List Char)
  | [] => []
  | x :: xs => insertTok x (sortTokens xs)

/-- Prefix test on character lists, recursing on the pattern so that an
exhausted pattern accepts without inspecting the rest of the subject. -/
def isPre : List Char → List Char → Bool
  | [], _ => true
  | a :: as, l =>
    match l with
    | [] => false
    | b :: bs => a == b && isPre as bs

/-- First token of the alternation matching at the current position. -/
def findTok (tokens : List (List Char)) (input : List Char) : Option (List Char) :=
  tokens.find? (fun t => !t.isEmpty && isPre t input)

/-- Single left-to-right scan of the subject against the token
alternation: each position either starts an occurrence of the first
matching token of the sorted list, which is consumed whole, or its
character passes through. The fuel argument bounds the recursion by the
input length. -/
def scanPieces (tokens : List (List Char)) : Nat → List Char → List (List Char ⊕ Char)
  | 0, _ => []
  | _ + 1, [] => []
  | fuel + 1, c :: rest =>
    match findTok tokens (c :: rest) with
    | some t => Sum.inl t :: scanPieces tokens fuel (rest.drop (t.length - 1))
    | none => Sum.inr c :: scanPieces tokens fuel rest

/-- Replacement pass of Substitutor.__call__ (regex sub with the lookup
callback): matched tokens are replaced by their mapped value, other
characters pass through unchanged; replacement text is emitted, never
rescanned. -/
def applySubst (tokens : List (List Char)) (f : List Char → List Char)
    (input : List Char) : List Char :=
  (scanPieces tokens input.length input).foldr
    (fun p acc => match p with | .inl t => f t ++ acc | .inr c => c :: acc) []

/-- Substitution of Substitutor on a mapping given as an association list
(in Python dict insertion order): tokens sorted, lookup by key. -/
def subApply (subs : List (List Char × List Char)) (input : List Char) : List Char :=
  applySubst (sortTokens (subs.map (·.1)))
    (fun t => (((subs.find? (fun p => p.1 == t)).map (·.2)).getD [])) input

/-! ### Regular expressions (the fragment of Python re used by from_string)

The parse path substitutes each template token with a named-group regex
fragment and compiles the result; the fragments consist of literals,
digit classes (backslash-d), greedy optional digits, alternations of
literal words, a greedy character-class plus, and named groups. The
matcher below implements Python re.match: anchored at the start of the
subject, not at the end, backtracking, alternatives tried left to right,
greedy optionals and plus. -/

/-- Regex abstract syntax for the fragments used by the parser. -/
inductive RE where
  | eps : RE
  | lit : List Char → RE
  | cls : (Char → Bool) → RE
  | opt : RE → RE
  | plus : (Char → Bool) → RE
  | cat : RE → RE → RE
  | alt : RE → RE → RE
  | grp : String → RE → RE

/-- Named-group captures of a match. -/
abbrev Groups := List (String × List Char)

/-- Greedy backtracking loop of a character-class plus: try the longest
consumable prefix first, then shorter ones, at least one character. -/
def plusTry (k : List Char → Groups → Option Groups) (input : List Char) (gs : Groups) :
    Nat → Option Groups
  | 0 => none
  | i + 1 =>
    match k (input.drop (i + 1)) gs with
    | some v => some v
    | none => plusTry k input gs i

/-- Backtracking matcher in continuation style: matchR r input k gs tries
to match r at the start of input and calls the continuation k with the
rest of the input and the accumulated named-group captures; alternatives
are tried left to right, optionals and plus are greedy, and a named group
captures the span its body consumed. -/
def matchR : RE → List Char → (List Char → Groups → Option Groups) → Groups → Option Groups
  | .eps, input, k, gs => k input gs
  | .lit s, input, k, gs => if isPre s input then k (input.drop s.length) gs else none
  | .cls p, input, k, gs =>
    match input with
    | [] => none
    | c :: rest => if p c then k rest gs else none
  | .opt r, input, k, gs =>
    match matchR r input k gs with
    | some v => some v
    | none => k input gs
  | .plus p, input, k, gs => plusTry k input gs (input.takeWhile p).length
  | .cat a b, input, k, gs => matchR a input (fun rest gs2 => matchR b rest k gs2) gs
  | .alt a b, input, k, gs =>
    match matchR a input k gs with
    | some v => some v
    | none => matchR b input k gs
  | .grp n r, input, k, gs =>
    matchR r input (fun rest gs2 => k rest ((n, input.take (input.length - rest.length)) :: gs2)) gs

/-- Python re.match: anchored at the start, trailing input allowed,
returning the named-group captures. -/
def reMatch (r : RE) (s : List Char) : Option Groups :=
  matchR r s (fun _ gs => some gs) []

/-- Lookup of a named group (match.groupdict().get(name, None): a group
absent from the pattern or unmatched yields none). -/
def grpGet (gs : Groups) (n : String) : Option (List Char) :=
  (gs.find? (fun p => p.1 == n)).map (·.2)

/-- Digit class backslash-d. -/
def dig : RE := .cls isDig

/-- Fragment of two mandatory digits with a named group. -/
def grpD2 (n : String) : RE := .grp n (.cat dig dig)

/-- Fragment of three mandatory digits with a named group. -/
def grpD3 (n : String) : RE := .grp n (.cat dig (.cat dig dig))

/-- Fragment of one mandatory and one optional digit, greedy, with a
named group. -/
def grpD1 (n : String) : RE := .grp n (.cat (.opt dig) dig)

/-- Fragment of one mandatory and up to two optional digits, greedy. -/
def grpD12 (n : String) : RE := .grp n (.cat (.opt dig) (.cat (.opt dig) dig))

/-- Fragment of one mandatory and up to three optional digits, greedy. -/
def grpD4 (n : String) : RE :=
  .grp n (.cat (.opt dig) (.cat (.opt dig) (.cat (.opt dig) dig)))

/-- Fragment of six mandatory digits. -/
def grpD6 (n : String) : RE :=
  .grp n (.cat dig (.cat dig (.cat dig (.cat dig (.cat dig dig)))))

/-- Fragment of one mandatory and up to five optional digits, greedy. -/
def grpD12345 (n : String) : RE :=
  .grp n (.cat (.opt dig) (.cat (.opt dig) (.cat (.opt dig) (.cat (.opt dig)
    (.cat (.opt dig) dig)))))

/-- Alternation of literal words, tried left to right as written in the
source pattern. -/
def altChain : List (List Char) → RE
  | [] => .eps
  | [w] => .lit w
  | w :: ws => .alt (.lit w) (altChain ws)

/-- Characters of the timezone-name class [a-zA-Z_/]. -/
def isTzChar (c : Char) : Bool :=
  (97 ≤ c.toNat && c.toNat ≤ 122) || (65 ≤ c.toNat && c.toNat ≤ 90) || c == '_' || c == '/'

/-- Fragment of the timezone token: Z, z, or a name of class characters. -/
def tzRE : RE := .grp "timezone" (.alt (.lit ['Z']) (.alt (.lit ['z']) (.plus isTzChar)))

/-- The substitutions_for_regex mapping of When.from_string, token by
token in source order: each template token and the regex fragment that
replaces it. -/
def parseSubs : List (List Char × RE) :=
  [("1776".toList, grpD4 "_1776"),
   ("76".toList, grpD2 "_76"),
   ("July".toList, .grp "_July" (altChain (["January", "February", "March", "April", "May",
      "June", "July", "August", "September", "October", "November",
      "December"].map String.toList))),
   ("Jul".toList, .grp "_Jul" (altChain (["Jan", "Feb", "Mar", "Apr", "May", "Jun", "Jul",
      "Aug", "Sep", "Oct", "Nov", "Dec"].map String.toList))),
   ("America/New_York".toList, tzRE),
   ("012345".toList, grpD6 "_012345"),
   ("12345".toList, grpD12345 "_12345"),
   ("012".toList, grpD3 "_012"),
   ("12".toList, grpD12 "_12"),
   ("13".toList, grpD2 "_13"),
   ("07".toList, grpD2 "_07"),
   ("04".toList, grpD2 "_04"),
   ("03".toList, grpD2 "_03"),
   ("02".toList, grpD2 "_02"),
   ("01".toList, grpD2 "_01"),
   ("7".toList, grpD1 "_7"),
   ("4".toList, grpD1 "_4"),
   ("3".toList, grpD1 "_3"),
   ("2".toList, grpD1 "_2"),
   ("1".toList, grpD1 "_1"),
   ("pm".toList, .grp "_pm" (altChain (["am", "pm"].map String.toList))),
   ("p.m.".toList, .grp "_p_m_" (altChain (["a.m.", "p.m."].map String.toList))),
   ("PM".toList, .grp "_PM" (altChain (["AM", "PM"].map String.toList))),
   ("P.M.".toList, .grp "_P_M_" (altChain (["A.M.", "P.M."].map String.toList)))]

/-- Tokens of the parse substitution in the order the Substitutor scans
them. -/
def parseTokens : List (List Char) := sortTokens (parseSubs.map (·.1))

/-- Regex of one scanned template piece: a token becomes its fragment, a
literal character becomes itself; the dot, a regex metacharacter left
unescaped in the compiled template, matches any character (the modelled
templates contain no other metacharacters outside tokens). -/
def pieceRE (p : List Char ⊕ Char) : RE :=
  match p with
  | .inl t => ((parseSubs.find? (fun q => q.1 == t)).map (·.2)).getD (.lit t)
  | .inr c => if c = '.' then .cls (fun _ => true) else .lit [c]

/-- Concatenation of a piece list. -/
def reChain : List RE → RE
  | [] => .eps
  | r :: rs => .cat r (reChain rs)

/-- The parse regex of a template: the Substitutor pass of from_string
over the specifier with the fragment substitutions, compiled. -/
def templateRE (template : List Char) : RE :=
  reChain ((scanPieces parseTokens template.length template).map pieceRE)

/-! ### The reference-template parser pipeline (When.from_string) -/

/-- Reconciliation of redundant candidates (_scrub_potentials): drop the
None entries; none left yields None; otherwise all remaining must equal
the first or an AmbiguousTimeError is raised. -/
def scrub (l : List (Option Int)) : Except Err (Option Int) :=
  match l.filterMap id with
  | [] => .ok none
  | f :: rest => if rest.all (fun p => f == p) then .ok (some f) else .error .ambiguous

/-- Python int() of a matched digit group. -/
def intOf (x : Option (List Char)) : Option Int := x.map (fun s => (strToNat s : Int))

/-- Month name table of _process_month (month_to_int), full and
abbreviated names to their month number. -/
def monthTable : List (List Char × Int) :=
  [("January".toList, 1), ("Jan".toList, 1), ("February".toList, 2), ("Feb".toList, 2),
   ("March".toList, 3), ("Mar".toList, 3), ("April".toList, 4), ("Apr".toList, 4),
   ("May".toList, 5), ("June".toList, 6), ("Jun".toList, 6), ("July".toList, 7),
   ("Jul".toList, 7), ("August".toList, 8), ("Aug".toList, 8), ("September".toList, 9),
   ("Sep".toList, 9), ("October".toList, 10), ("Oct".toList, 10), ("November".toList, 11),
   ("Nov".toList, 11), ("December".toList, 12), ("Dec".toList, 12)]

/-- Lookup in the month table; a None name maps to None, an unknown name
is a KeyError. -/
def monthToInt (x : Option (List Char)) : Except Err (Option Int) :=
  match x with
  | none => .ok none
  | some s =>
    match (monthTable.find? (fun p => p.1 == s)).map (·.2) with
    | some v => .ok (some v)
    | none => .error .keyError

/-- Year processing (_process_year): a 2-digit year requires the century
argument and resolves to century plus the digits, its absence raises (the
MissingCenturyError site); a 4-digit year further than 100 years from a
supplied century raises an AmbiguousTimeError; both candidates are
returned for reconciliation. -/
def processYear (y1776 y76 : Option (List Char)) (century : Option Int) :
    Except Err (Option Int × Option Int) := do
  let yearFrom76 : Option Int ←
    match y76 with
    | some dec =>
      match century with
      | none => .error .missingCentury
      | some c => pure (some (c + (strToNat dec : Int)))
    | none => pure none
  match y1776 with
  | some s =>
    match century with
    | some c =>
      if ((strToNat s : Int) - c).natAbs > 100 then .error .ambiguous
      else pure (some (strToNat s : Int), yearFrom76)
    | none => pure (some (strToNat s : Int), yearFrom76)
  | none => pure (none, yearFrom76)

/-- Month processing (_process_month): names through the table, numeric
groups through int(). -/
def processMonth (mJuly mJul m07 m7 : Option (List Char)) :
    Except Err (Option Int × Option Int × Option Int × Option Int) := do
  let a ← monthToInt mJuly
  let b ← monthToInt mJul
  pure (a, b, intOf m07, intOf m7)

/-- Meridian group value: the PM spelling of the group maps to 12, the AM
spelling to 0. -/
def meridianVal (pmSpelling : List Char) (x : Option (List Char)) : Option Int :=
  x.map (fun s => if s == pmSpelling then (12 : Int) else 0)

/-- Hour processing (_process_hour): the meridian groups are reconciled to
one offset (0 when none matched), the 24-hour group is taken as is, and
the offset is added to each matched 12-hour group with no special case for
hour 12. -/
def processHour (h13 h01 h1 mpm mpdot mPM mPdot : Option (List Char)) :
    Except Err (Option Int × Option Int × Option Int) := do
  let moff ← scrub [meridianVal "pm".toList mpm, meridianVal "p.m.".toList mpdot,
    meridianVal "PM".toList mPM, meridianVal "P.M.".toList mPdot]
  let offset := moff.getD 0
  pure (intOf h13, (intOf h01).map (fun v => offset + v), (intOf h1).map (fun v => offset + v))

/-- Fractional-second processing (_process_fractional_sections):
millisecond groups scaled to microseconds, microsecond groups as is. -/
def processFractional (ms012 ms12 us12345 us012345 : Option (List Char)) :
    Option Int × Option Int × Option Int × Option Int :=
  ((intOf ms012).map (fun v => 1000 * v), (intOf ms12).map (fun v => 1000 * v),
   intOf us12345, intOf us012345)

/-- Timezone processing (_process_timezone): the literal z or Z maps to
utc, any other matched name passes through, an absent group stays None. -/
def processTimezone (x : Option (List Char)) : Option String :=
  match x with
  | some s => if s == "z".toList || s == "Z".toList then some "utc" else some (String.mk s)
  | none => none

/-- Write of the parse reconciliation record (NotNoneDict.__setitem__ on a
key the record already holds — from_string seeds every key with its
keyword default): a non-None value overwrites, a None write keeps the
current value. -/
def nnSet (cur v : Option α) : Option α :=
  match v with
  | some x => some x
  | none => cur

/-- Field processing and reconciliation of the parser, applied to the
named-group captures of a successful template match (the body of
When.from_string after the regex match): process and reconcile each field
group, fold the results over the seeded record, and construct the When. -/
def fromGroups (gs : Groups) (century : Option Int)
    (yearKw monthKw dayKw hourKw minuteKw secondKw us0 : Option Int)
    (tzKw : Option String) (dstKw : Option Bool) : Except Err When := do
  let yt ← processYear (grpGet gs "_1776") (grpGet gs "_76") century
  let yearv ← scrub [yt.1, yt.2]
  let mt ← processMonth (grpGet gs "_July") (grpGet gs "_Jul") (grpGet gs "_07")
    (grpGet gs "_7")
  let monthv ← scrub [mt.1, mt.2.1, mt.2.2.1, mt.2.2.2]
  let dayv ← scrub [intOf (grpGet gs "_04"), intOf (grpGet gs "_4")]
  let ht ← processHour (grpGet gs "_13") (grpGet gs "_01") (grpGet gs "_1")
    (grpGet gs "_pm") (grpGet gs "_p_m_") (grpGet gs "_PM") (grpGet gs "_P_M_")
  let hourv ← scrub [ht.1, ht.2.1, ht.2.2]
  let minutev ← scrub [intOf (grpGet gs "_02"), intOf (grpGet gs "_2")]
  let secondv ← scrub [intOf (grpGet gs "_03"), intOf (grpGet gs "_3")]
  let ft := processFractional (grpGet gs "_012") (grpGet gs "_12")
    (grpGet gs "_12345") (grpGet gs "_012345")
  let usv ← scrub [ft.1, ft.2.1, ft.2.2.1, ft.2.2.2]
  let tzv := processTimezone (grpGet gs "timezone")
  whenInit (nnSet yearKw yearv) (nnSet monthKw monthv) (nnSet dayKw dayv)
    (nnSet hourKw hourv) (nnSet minuteKw minutev) (nnSet secondKw secondv)
    (nnSet us0 usv) (nnSet tzKw tzv) dstKw

/-- The parser (When.from_string): pre-reconcile the millisecond and
microsecond keyword arguments, build the parse regex from the template by
token substitution, match the subject anchored at the start (ParsingError
when the match fails), then process the captured groups. -/
def fromString (subject template : List Char) (century : Option Int)
    (yearKw monthKw dayKw hourKw minuteKw secondKw msKw usKw : Option Int)
    (tzKw : Option String) (dstKw : Option Bool) : Except Err When := do
  let us0 : Option Int ←
    match msKw, usKw with
    | some ms, none => pure (some (1000 * ms))
    | some ms, some us =>
      if 1000 * ms ≠ us then .error .ambiguous else pure (some us)
    | none, u => pure u
  match reMatch (templateRE template) subject with
  | none => .error .parsing
  | some gs =>
    fromGroups gs century yearKw monthKw dayKw hourKw minuteKw secondKw us0 tzKw dstKw

/-- The parser at the keyword defaults of from_string (hour, minute,
second, millisecond and microsecond default to 0, the rest to None), with
the century and timezone arguments exposed. -/
def parseWith (subject template : List Char) (century : Option Int) (tzKw : Option String) :
    Except Err When :=
  fromString subject template century none none none (some 0) (some 0) (some 0) (some 0)
    (some 0) tzKw none

/-! ### Formatting (When.__format__ and _update_format_substitutor) -/

/-- Python str.lstrip of zeros, as the unpadded format values use it. -/
def lstrip0 (s : List Char) : List Char := s.dropWhile (fun c => c == '0')

/-- Twelve-hour clock value of an hour (strftime %I, zero-padded by
pad2). -/
def hour12 (h : Nat) : Nat := if h % 12 = 0 then 12 else h % 12

/-- Absolute offset of a registry timezone in minutes. -/
def offAbs (tz : String) : Nat := ((offMinutes tz).getD 0).natAbs

/-- Compact UTC offset rendering (strftime %z). -/
def offStrCompact (tz : String) : List Char :=
  (if (offMinutes tz).getD 0 < 0 then ['-'] else ['+'])
    ++ pad2 (offAbs tz / 60) ++ pad2 (offAbs tz % 60)

/-- Colon-separated UTC offset rendering (the format table builds it from
the compact form). -/
def offStrColon (tz : String) : List Char :=
  (if (offMinutes tz).getD 0 < 0 then ['-'] else ['+'])
    ++ pad2 (offAbs tz / 60) ++ [':'] ++ pad2 (offAbs tz % 60)

/-- Weekday index of a date with Wednesday as zero (day zero of the count,
0000-03-01, was a Wednesday). -/
def weekdayIdx (F : Fields) : Nat := daysFromCivil F.year F.month F.day % 7

/-- Full weekday name (strftime %A). -/
def weekdayName (F : Fields) : List Char :=
  (["Wednesday", "Thursday", "Friday", "Saturday", "Sunday", "Monday",
    "Tuesday"].map String.toList).getD (weekdayIdx F) []

/-- Abbreviated weekday name (strftime %a). -/
def weekdayAbbr (F : Fields) : List Char :=
  (["Wed", "Thu", "Fri", "Sat", "Sun", "Mon", "Tue"].map String.toList).getD (weekdayIdx F) []

/-- Full month name (strftime %B). -/
def monthName (m : Nat) : List Char :=
  (["January", "February", "March", "April", "May", "June", "July", "August",
    "September", "October", "November", "December"].map String.toList).getD (m - 1) []

/-- Abbreviated month name (strftime %b). -/
def monthAbbr (m : Nat) : List Char :=
  (["Jan", "Feb", "Mar", "Apr", "May", "Jun", "Jul", "Aug", "Sep", "Oct", "Nov",
    "Dec"].map String.toList).getD (m - 1) []

/-- Ordinal inflection of the day of month (property When.inflection). -/
def inflectionOf (day : Nat) : List Char :=
  if day = 1 ∨ day = 21 ∨ day = 31 then "st".toList
  else if day = 2 ∨ day = 22 then "nd".toList
  else if day = 3 ∨ day = 23 then "rd".toList
  else "th".toList

/-- The format substitution mapping (_update_format_substitutor), token by
token in source order, over the current view fields and timezone name. -/
def formatSubs (F : Fields) (tz : String) : List (List Char × List Char) :=
  [("1776".toList, pad4 F.year),
   ("012345".toList, pad6 F.micro),
   ("12345".toList, lstrip0 (pad6 F.micro)),
   ("012".toList, (pad6 F.micro).take 3),
   ("76".toList, pad2 (F.year % 100)),
   ("13".toList, pad2 F.hour),
   ("12".toList, lstrip0 ((pad6 F.micro).take 3)),
   ("-04:00".toList, offStrColon tz),
   ("-0400".toList, offStrCompact tz),
   ("July".toList, monthName F.month),
   ("Jul".toList, monthAbbr F.month),
   ("01".toList, pad2 (hour12 F.hour)),
   ("02".toList, pad2 F.minute),
   ("03".toList, pad2 F.second),
   ("04".toList, pad2 F.day),
   ("07".toList, pad2 F.month),
   ("1".toList, lstrip0 (pad2 (hour12 F.hour))),
   ("2".toList, lstrip0 (pad2 F.minute)),
   ("3".toList, lstrip0 (pad2 F.second)),
   ("4".toList, lstrip0 (pad2 F.day)),
   ("7".toList, lstrip0 (pad2 F.month)),
   ("America/New_York".toList, tz.toList),
   ("Thursday".toList, weekdayName F),
   ("Thu".toList, weekdayAbbr F),
   ("th".toList, inflectionOf F.day),
   ("PM".toList, if F.hour < 12 then "AM".toList else "PM".toList),
   ("P.M.".toList, if F.hour < 12 then "A.M.".toList else "P.M.".toList),
   ("pm".toList, if F.hour < 12 then "am".toList else "pm".toList),
   ("p.m.".toList, if F.hour < 12 then "a.m.".toList else "p.m.".toList)]

/-- Formatting (When.__format__): the format_substitutor property returns
the cached Substitutor, computing and storing it only when the cache is
empty; the substitutor is applied to the template. The updated When
carries the (possibly newly filled) cache. -/
def formatWhen (w : When) (template : List Char) : List Char × When :=
  match w.cache with
  | some m => (subApply m template, w)
  | none =>
    (subApply (formatSubs w.viewFields w.tzName) template,
     { w with cache := some (formatSubs w.viewFields w.tzName) })

/-! ### Duration values (when/while_.py, class While) -/

/-- A While duration object: the seconds scalar together with an object
identity, standing for the Python object id; While defines no __eq__, so
the == operator compares identities. The float scalar is modelled as a
rational; the conversion constants 1e-3 and 1e-6 are modelled as exact
thousandths and millionths. -/
structure WhileObj where
  objId : Nat
  seconds : ℚ
deriving DecidableEq, Repr

/-- The unit conversion table of While (conversions, in seconds). -/
def whileConversions : List (String × ℚ) :=
  [("microseconds", 1 / 1000000), ("milliseconds", 1 / 1000), ("seconds", 1),
   ("minutes", 60), ("hours", 3600), ("days", 86400), ("weeks", 604800)]

/-- The While constructor (While.__init__): the keyword quantities are
folded into one seconds scalar through the conversion table. The fresh
object identity is passed explicitly. -/
def whileMk (days hours minutes seconds milliseconds microseconds : ℚ)
    (objId : Nat) : WhileObj :=
  ⟨objId, days * 86400 + hours * 3600 + minutes * 60 + seconds * 1
    + milliseconds * (1 / 1000) + microseconds * (1 / 1000000)⟩

/-- Named-unit access (While.__getattr__): the scalar divided by the
conversion factor, an AttributeError for a name outside the table. -/
def whileGetAttr (w : WhileObj) (name : String) : Except Err ℚ :=
  match (whileConversions.find? (fun p => p.1 == name)).map (·.2) with
  | some c => .ok (w.seconds / c)
  | none => .error .attributeError

/-- Subtraction of While values (While.__sub__ on a While operand): a new
object holding the difference of the scalars. -/
def whileSub (a b : WhileObj) (freshId : Nat) : WhileObj := ⟨freshId, a.seconds - b.seconds⟩

/-- The == operator between While values: While defines no __eq__, so
Python falls back to default object identity comparison. -/
def whileEqPy (a b : WhileObj) : Bool := a.objId == b.objId

/-! ### The reconciliation record (class NotNoneDict) in general form -/

/-- A NotNoneDict as an association list of field names to optional
values. -/
abbrev NND := List (String × Option Int)

/-- NotNoneDict.__setitem__: when the key is present, a non-None value
overwrites the stored value and a None value is discarded; when the key is
absent, the value is stored as given. No branch raises. -/
def nndSet (d : NND) (k : String) (v : Option Int) : NND :=
  if (d.find? (fun p => p.1 == k)).isSome then
    match v with
    | some x => d.map (fun p => if p.1 == k then (p.1, some x) else p)
    | none => d
  else d ++ [(k, v)]

/-- NotNoneDict.__getitem__ as an optional lookup (none for a missing
key). -/
def nndGet (d : NND) (k : String) : Option (Option Int) :=
  (d.find? (fun p => p.1 == k)).map (·.2)

/-! ### Concrete templates and their compiled regexes -/

/-- The reference template at full precision with the timezone name, the
reference date of the format docstring rendered literally. -/
def refTemplate : List Char := "1776-07-04 13:02:03.012345America/New_York".toList

/-- Template holding both the 4-digit and the 2-digit year token. -/
def tmplY4Y2 : List Char := "1776-07-04 76".toList

/-- Template whose only year token is the 2-digit one. -/
def tmplY2 : List Char := "76-07-04".toList

/-- Template with a 12-hour hour token and a meridian token. -/
def tmplHourPm : List Char := "1776-07-04 01pm".toList

/-- The 29 format tokens in dict insertion order. -/
def refKeys : List (List Char) :=
  ["1776".toList, "012345".toList, "12345".toList, "012".toList, "76".toList,
   "13".toList, "12".toList, "-04:00".toList, "-0400".toList, "July".toList,
   "Jul".toList, "01".toList, "02".toList, "03".toList, "04".toList,
   "07".toList, "1".toList, "2".toList, "3".toList, "4".toList, "7".toList,
   "America/New_York".toList, "Thursday".toList, "Thu".toList, "th".toList,
   "PM".toList, "P.M.".toList, "pm".toList, "p.m.".toList]

/-- The format tokens sorted by (length, token) descending. -/
def refTokens : List (List Char) :=
  ["America/New_York".toList, "Thursday".toList, "012345".toList,
   "-04:00".toList, "12345".toList, "-0400".toList, "p.m.".toList,
   "P.M.".toList, "July".toList, "1776".toList, "Thu".toList, "Jul".toList,
   "012".toList, "th".toList, "pm".toList, "PM".toList, "76".toList,
   "13".toList, "12".toList, "07".toList, "04".toList, "03".toList,
   "02".toList, "01".toList, "7".toList, "4".toList, "3".toList,
   "2".toList, "1".toList]

/-- Consistency of a UTC anchor with a localized view: the view fields are
valid, the zone is registered, and the anchor is the localized timestamp. -/
def ConsistentView (utc : Int) (F : Fields) (tz : String) : Prop :=
  ValidFields F ∧ (offMinutes tz).isSome = true ∧ utc = (tsOfFields F : Int) - offUsec tz

/-- Well-formedness of a When value: the stored view is consistent with
the UTC anchor, and the format cache, when filled, is the substitution
mapping of some view consistent with the same anchor (the current view
right after formatting, or a view the instant previously had if the
timezone was re-assigned after formatting, the cache surviving the
assignment). -/
def WFWhen (w : When) : Prop :=
  ConsistentView w.utcTS w.viewFields w.tzName ∧
  (w.cache = none ∨ ∃ F2 tz2, ConsistentView w.utcTS F2 tz2 ∧ w.cache = some (formatSubs F2 tz2))

instance {A : Type} [DecidableEq A] : DecidableEq (Except Err A) := fun a b =>
  match a, b with
  | .error x, .error y =>
    if h : x = y then .isTrue (by rw [h]) else .isFalse (fun hc => h (by injection hc))
  | .ok x, .ok y =>
    if h : x = y then .isTrue (by rw [h]) else .isFalse (fun hc => h (by injection hc))
  | .error _, .ok _ => .isFalse (fun hc => Except.noConfusion hc)
  | .ok _, .error _ => .isFalse (fun hc => Except.noConfusion hc)

theorem dVal_dChar {n : Nat} (h : n < 10) : dVal (dChar n) = n := by
  interval_cases n <;> rfl

theorem isDig_dChar {n : Nat} (h : n < 10) : isDig (dChar n) = true := by
  interval_cases n <;> rfl

theorem strToNat_pad2 {n : Nat} (h : n < 100) : strToNat (pad2 n) = n := by
  have h1 : n / 10 < 10 := by omega
  have h2 : n % 10 < 10 := by omega
  simp [strToNat, pad2, dVal_dChar h1, dVal_dChar h2]
  omega

theorem strToNat_pad4 {n : Nat} (h : n < 10000) : strToNat (pad4 n) = n := by
  have h1 : n / 1000 < 10 := by omega
  have h2 : n / 100 % 10 < 10 := by omega
  have h3 : n / 10 % 10 < 10 := by omega
  have h4 : n % 10 < 10 := by omega
  simp [strToNat, pad4, dVal_dChar h1, dVal_dChar h2, dVal_dChar h3, dVal_dChar h4]
  omega

theorem strToNat_pad6 {n : Nat} (h : n < 1000000) : strToNat (pad6 n) = n := by
  have h1 : n / 100000 < 10 := by omega
  have h2 : n / 10000 % 10 < 10 := by omega
  have h3 : n / 1000 % 10 < 10 := by omega
  have h4 : n / 100 % 10 < 10 := by omega
  have h5 : n / 10 % 10 < 10 := by omega
  have h6 : n % 10 < 10 := by omega
  simp [strToNat, pad6, dVal_dChar h1, dVal_dChar h2, dVal_dChar h3, dVal_dChar h4,
        dVal_dChar h5, dVal_dChar h6]
  omega

theorem yoe_recover (yoe doy : Nat) (hyoe : yoe < 400)
    (hdoy : doy ≤ 364 ∨ (doy = 365 ∧ ((yoe+1) % 4 = 0 ∧ (yoe+1) % 100 ≠ 0 ∨ (yoe+1) % 400 = 0))) :
    ((yoe * 365 + yoe / 4 - yoe / 100 + doy) - (yoe * 365 + yoe / 4 - yoe / 100 + doy) / 1460
      + (yoe * 365 + yoe / 4 - yoe / 100 + doy) / 36524
      - (yoe * 365 + yoe / 4 - yoe / 100 + doy) / 146096) / 365 = yoe := by
  interval_cases yoe <;> omega

theorem civil_core (era yoe mp d doy : Nat) (hyoe : yoe < 400) (hmp : mp < 12) (hd : 1 ≤ d)
    (hdlen : d ≤ (153 * (mp + 1) + 2) / 5 - (153 * mp + 2) / 5)
    (hdoydef : doy = (153 * mp + 2) / 5 + d - 1)
    (hdoy : doy ≤ 364 ∨ (doy = 365 ∧ ((yoe+1) % 4 = 0 ∧ (yoe+1) % 100 ≠ 0 ∨ (yoe+1) % 400 = 0))) :
    civilFromDays (era * 146097 + (yoe * 365 + yoe / 4 - yoe / 100 + doy))
      = ((if (if mp < 10 then mp + 3 else mp - 9) ≤ 2 then yoe + era * 400 + 1
            else yoe + era * 400),
         (if mp < 10 then mp + 3 else mp - 9), d) := by
  have h_doe : cfd_doe (era * 146097 + (yoe * 365 + yoe / 4 - yoe / 100 + doy))
      = yoe * 365 + yoe / 4 - yoe / 100 + doy := by
    unfold cfd_doe; omega
  have h_era : cfd_era (era * 146097 + (yoe * 365 + yoe / 4 - yoe / 100 + doy)) = era := by
    unfold cfd_era; omega
  have h_yoe : cfd_yoe (era * 146097 + (yoe * 365 + yoe / 4 - yoe / 100 + doy)) = yoe := by
    unfold cfd_yoe
    rw [h_doe]
    exact yoe_recover yoe doy hyoe hdoy
  have h_doy : cfd_doy (era * 146097 + (yoe * 365 + yoe / 4 - yoe / 100 + doy)) = doy := by
    unfold cfd_doy
    rw [h_doe, h_yoe]
    omega
  have h_mp : cfd_mp (era * 146097 + (yoe * 365 + yoe / 4 - yoe / 100 + doy)) = mp := by
    unfold cfd_mp
    rw [h_doy]
    interval_cases mp <;> omega
  have h_d : cfd_d (era * 146097 + (yoe * 365 + yoe / 4 - yoe / 100 + doy)) = d := by
    unfold cfd_d
    rw [h_doy, h_mp]
    interval_cases mp <;> omega
  have h_m : cfd_m (era * 146097 + (yoe * 365 + yoe / 4 - yoe / 100 + doy))
      = (if mp < 10 then mp + 3 else mp - 9) := by
    unfold cfd_m
    rw [h_mp]
  have h_y : cfd_y (era * 146097 + (yoe * 365 + yoe / 4 - yoe / 100 + doy))
      = (if (if mp < 10 then mp + 3 else mp - 9) ≤ 2 then yoe + era * 400 + 1
          else yoe + era * 400) := by
    unfold cfd_y
    rw [h_m, h_yoe, h_era]
  unfold civilFromDays
  rw [h_y, h_m, h_d]

theorem civil_inv (y m d : Nat) (hy : 1 ≤ y) (hy2 : y ≤ 9999) (hm : 1 ≤ m) (hm2 : m ≤ 12)
    (hd : 1 ≤ d) (hd2 : d ≤ daysInMonth y m) :
    civilFromDays (daysFromCivil y m d) = (y, m, d) := by
  interval_cases m
  · -- month 1
    unfold daysInMonth at hd2
    norm_num at hd2
    have hyoe : (y - 1) % 400 < 400 := Nat.mod_lt _ (by norm_num)
    have hc := civil_core ((y - 1) / 400) ((y - 1) % 400) 10 d (dfc_doy 1 d) hyoe (by norm_num)
      hd (by omega) (by unfold dfc_doy; omega) (by unfold dfc_doy; omega)
    have heq : daysFromCivil y 1 d
        = (y - 1) / 400 * 146097 + ((y - 1) % 400 * 365 + (y - 1) % 400 / 4 - (y - 1) % 400 / 100
            + dfc_doy 1 d) := by
      unfold daysFromCivil dfc_doe dfc_ys
      norm_num
    rw [heq, hc]
    norm_num
    omega
  · -- month 2
    unfold daysInMonth isLeap at hd2
    norm_num at hd2
    have hfeb : d ≤ 28 ∨ (d = 29 ∧ (y % 4 = 0 ∧ y % 100 ≠ 0 ∨ y % 400 = 0)) := by
      split_ifs at hd2 with hl
      · simp only [Bool.or_eq_true, Bool.and_eq_true, beq_iff_eq, bne_iff_ne] at hl
        omega
      · omega
    have hyoe : (y - 1) % 400 < 400 := Nat.mod_lt _ (by norm_num)
    have hc := civil_core ((y - 1) / 400) ((y - 1) % 400) 11 d (dfc_doy 2 d) hyoe (by norm_num)
      hd (by omega) (by unfold dfc_doy; omega) (by unfold dfc_doy; omega)
    have heq : daysFromCivil y 2 d
        = (y - 1) / 400 * 146097 + ((y - 1) % 400 * 365 + (y - 1) % 400 / 4 - (y - 1) % 400 / 100
            + dfc_doy 2 d) := by
      unfold daysFromCivil dfc_doe dfc_ys
      norm_num
    rw [heq, hc]
    norm_num
    omega
  · -- month 3
    unfold daysInMonth at hd2
    norm_num at hd2
    have hyoe : y % 400 < 400 := Nat.mod_lt _ (by norm_num)
    have hc := civil_core (y / 400) (y % 400) 0 d (dfc_doy 3 d) hyoe (by norm_num)
      hd (by omega) (by unfold dfc_doy; omega) (by unfold dfc_doy; omega)
    have heq : daysFromCivil y 3 d
        = y / 400 * 146097 + (y % 400 * 365 + y % 400 / 4 - y % 400 / 100
            + dfc_doy 3 d) := by
      unfold daysFromCivil dfc_doe dfc_ys
      norm_num
    rw [heq, hc]
    norm_num
    omega
  · -- month 4
    unfold daysInMonth at hd2
    norm_num at hd2
    have hyoe : y % 400 < 400 := Nat.mod_lt _ (by norm_num)
    have hc := civil_core (y / 400) (y % 400) 1 d (dfc_doy 4 d) hyoe (by norm_num)
      hd (by omega) (by unfold dfc_doy; omega) (by unfold dfc_doy; omega)
    have heq : daysFromCivil y 4 d
        = y / 400 * 146097 + (y % 400 * 365 + y % 400 / 4 - y % 400 / 100
            + dfc_doy 4 d) := by
      unfold daysFromCivil dfc_doe dfc_ys
      norm_num
    rw [heq, hc]
    norm_num
    omega
  · -- month 5
    unfold daysInMonth at hd2
    norm_num at hd2
    have hyoe : y % 400 < 400 := Nat.mod_lt _ (by norm_num)
    have hc := civil_core (y / 400) (y % 400) 2 d (dfc_doy 5 d) hyoe (by norm_num)
      hd (by omega) (by unfold dfc_doy; omega) (by unfold dfc_doy; omega)
    have heq : daysFromCivil y 5 d
        = y / 400 * 146097 + (y % 400 * 365 + y % 400 / 4 - y % 400 / 100
            + dfc_doy 5 d) := by
      unfold daysFromCivil dfc_doe dfc_ys
      norm_num
    rw [heq, hc]
    norm_num
    omega
  · -- month 6
    unfold daysInMonth at hd2
    norm_num at hd2
    have hyoe : y % 400 < 400 := Nat.mod_lt _ (by norm_num)
    have hc := civil_core (y / 400) (y % 400) 3 d (dfc_doy 6 d) hyoe (by norm_num)
      hd (by omega) (by unfold dfc_doy; omega) (by unfold dfc_doy; omega)
    have heq : daysFromCivil y 6 d
        = y / 400 * 146097 + (y % 400 * 365 + y % 400 / 4 - y % 400 / 100
            + dfc_doy 6 d) := by
      unfold daysFromCivil dfc_doe dfc_ys
      norm_num
    rw [heq, hc]
    norm_num
    omega
  · -- month 7
    unfold daysInMonth at hd2
    norm_num at hd2
    have hyoe : y % 400 < 400 := Nat.mod_lt _ (by norm_num)
    have hc := civil_core (y / 400) (y % 400) 4 d (dfc_doy 7 d) hyoe (by norm_num)
      hd (by omega) (by unfold dfc_doy; omega) (by unfold dfc_doy; omega)
    have heq : daysFromCivil y 7 d
        = y / 400 * 146097 + (y % 400 * 365 + y % 400 / 4 - y % 400 / 100
            + dfc_doy 7 d) := by
      unfold daysFromCivil dfc_doe dfc_ys
      norm_num
    rw [heq, hc]
    norm_num
    omega
  · -- month 8
    unfold daysInMonth at hd2
    norm_num at hd2
    have hyoe : y % 400 < 400 := Nat.mod_lt _ (by norm_num)
    have hc := civil_core (y / 400) (y % 400) 5 d (dfc_doy 8 d) hyoe (by norm_num)
      hd (by omega) (by unfold dfc_doy; omega) (by unfold dfc_doy; omega)
    have heq : daysFromCivil y 8 d
        = y / 400 * 146097 + (y % 400 * 365 + y % 400 / 4 - y % 400 / 100
            + dfc_doy 8 d) := by
      unfold daysFromCivil dfc_doe dfc_ys
      norm_num
    rw [heq, hc]
    norm_num
    omega
  · -- month 9
    unfold daysInMonth at hd2
    norm_num at hd2
    have hyoe : y % 400 < 400 := Nat.mod_lt _ (by norm_num)
    have hc := civil_core (y / 400) (y % 400) 6 d (dfc_doy 9 d) hyoe (by norm_num)
      hd (by omega) (by unfold dfc_doy; omega) (by unfold dfc_doy; omega)
    have heq : daysFromCivil y 9 d
        = y / 400 * 146097 + (y % 400 * 365 + y % 400 / 4 - y % 400 / 100
            + dfc_doy 9 d) := by
      unfold daysFromCivil dfc_doe dfc_ys
      norm_num
    rw [heq, hc]
    norm_num
    omega
  · -- month 10
    unfold daysInMonth at hd2
    norm_num at hd2
    have hyoe : y % 400 < 400 := Nat.mod_lt _ (by norm_num)
    have hc := civil_core (y / 400) (y % 400) 7 d (dfc_doy 10 d) hyoe (by norm_num)
      hd (by omega) (by unfold dfc_doy; omega) (by unfold dfc_doy; omega)
    have heq : daysFromCivil y 10 d
        = y / 400 * 146097 + (y % 400 * 365 + y % 400 / 4 - y % 400 / 100
            + dfc_doy 10 d) := by
      unfold daysFromCivil dfc_doe dfc_ys
      norm_num
    rw [heq, hc]
    norm_num
    omega
  · -- month 11
    unfold daysInMonth at hd2
    norm_num at hd2
    have hyoe : y % 400 < 400 := Nat.mod_lt _ (by norm_num)
    have hc := civil_core (y / 400) (y % 400) 8 d (dfc_doy 11 d) hyoe (by norm_num)
      hd (by omega) (by unfold dfc_doy; omega) (by unfold dfc_doy; omega)
    have heq : daysFromCivil y 11 d
        = y / 400 * 146097 + (y % 400 * 365 + y % 400 / 4 - y % 400 / 100
            + dfc_doy 11 d) := by
      unfold daysFromCivil dfc_doe dfc_ys
      norm_num
    rw [heq, hc]
    norm_num
    omega
  · -- month 12
    unfold daysInMonth at hd2
    norm_num at hd2
    have hyoe : y % 400 < 400 := Nat.mod_lt _ (by norm_num)
    have hc := civil_core (y / 400) (y % 400) 9 d (dfc_doy 12 d) hyoe (by norm_num)
      hd (by omega) (by unfold dfc_doy; omega) (by unfold dfc_doy; omega)
    have heq : daysFromCivil y 12 d
        = y / 400 * 146097 + (y % 400 * 365 + y % 400 / 4 - y % 400 / 100
            + dfc_doy 12 d) := by
      unfold daysFromCivil dfc_doe dfc_ys
      norm_num
    rw [heq, hc]
    norm_num
    omega

theorem fields_roundtrip (F : Fields) (hv : ValidFields F) : fieldsOfTs (tsOfFields F) = F := by
  unfold ValidFields at hv
  obtain ⟨h1, h2, h3, h4, h5, h6, h7, h8, h9, h10⟩ := hv
  have hdays : fotDays (tsOfFields F) = daysFromCivil F.year F.month F.day := by
    unfold fotDays tsOfFields
    omega
  have hciv := civil_inv F.year F.month F.day h1 h2 h3 h4 h5 h6
  have hh : fotH (tsOfFields F) = F.hour := by
    unfold fotH tsOfFields; omega
  have hmi : fotMi (tsOfFields F) = F.minute := by
    unfold fotMi tsOfFields; omega
  have hs : fotS (tsOfFields F) = F.second := by
    unfold fotS tsOfFields; omega
  have hus : fotUs (tsOfFields F) = F.micro := by
    unfold fotUs tsOfFields; omega
  unfold fieldsOfTs
  rw [hdays, hciv, hh, hmi, hs, hus]

/-! ### Support lemmas for the When theorems -/

theorem setTimezone_utcTS {w w2 : When} {tz : String} (h : setTimezone w tz = .ok w2) :
    w2.utcTS = w.utcTS := by
  unfold setTimezone at h
  cases ho : offMinutes tz with
  | none => rw [ho] at h; exact absurd h (by simp)
  | some o => rw [ho] at h; simp at h; rw [← h]

/-- Claim C1: equality and hashing of When values are functions of the
UTC-anchored field tuple alone. Equal UTC tuples give == true and equal
hashes; differing UTC tuples give == false; and re-viewing either operand
in any registry timezone never changes the comparison, since the setter
leaves the UTC anchor unchanged. -/
theorem when_eq_iff_utc_tuple (w1 w2 : When) :
    (utcFieldsOf w1 = utcFieldsOf w2 → whenEq w1 w2 = true ∧ whenHash w1 = whenHash w2)
    ∧ (utcFieldsOf w1 ≠ utcFieldsOf w2 → whenEq w1 w2 = false)
    ∧ (∀ tz w3, setTimezone w1 tz = .ok w3 → whenEq w3 w1 = true) := by
  refine ⟨fun h => ⟨?_, ?_⟩, fun h => ?_, fun tz w3 h => ?_⟩
  · simp [whenEq, h]
  · simp [whenHash, h]
  · simp [whenEq, h]
  · have : w3.utcTS = w1.utcTS := setTimezone_utcTS h
    simp [whenEq, utcFieldsOf, this]

/-- Witness for C1 at concrete inputs: two When values anchored at the
same UTC instant but viewed in different timezones compare equal with
equal hashes; a third with a different anchor compares unequal. -/
theorem when_eq_iff_utc_tuple_witness :
    (whenEq ⟨⟨2015, 1, 1, 12, 0, 0, 0⟩, "America/New_York", 63586026000000000, none⟩
        ⟨⟨2015, 1, 1, 9, 0, 0, 0⟩, "America/Los_Angeles", 63586026000000000, none⟩ = true
      ∧ whenHash ⟨⟨2015, 1, 1, 12, 0, 0, 0⟩, "America/New_York", 63586026000000000, none⟩
        = whenHash ⟨⟨2015, 1, 1, 9, 0, 0, 0⟩, "America/Los_Angeles", 63586026000000000, none⟩)
    ∧ whenEq ⟨⟨2015, 1, 1, 12, 0, 0, 0⟩, "America/New_York", 63586026000000000, none⟩
        ⟨⟨2015, 1, 1, 12, 0, 0, 0⟩, "utc", 63586026000001, none⟩ = false := by
  refine ⟨(when_eq_iff_utc_tuple _ _).1 (by decide), ?_⟩
  exact (when_eq_iff_utc_tuple _ _).2.1 (by decide)

/-- Claim C2: constructing a When from fields in a timezone and then
re-assigning the timezone view leaves the stored UTC anchor untouched at
each step, and assigning away and back restores exactly the original
localized field values. -/
theorem timezone_view_roundtrip (y m d h mi s us : Nat) (tz tz2 : String)
    (hv : ValidFields ⟨y, m, d, h, mi, s, us⟩)
    (h1 : (offMinutes tz).isSome = true) (h2 : (offMinutes tz2).isSome = true) :
    ∃ w w1 w2,
      whenInit (some (y : Int)) (some (m : Int)) (some (d : Int)) (some (h : Int))
          (some (mi : Int)) (some (s : Int)) (some (us : Int)) (some tz) none = .ok w
      ∧ setTimezone w tz2 = .ok w1 ∧ setTimezone w1 tz = .ok w2
      ∧ w1.utcTS = w.utcTS ∧ w2.utcTS = w.utcTS ∧ w1.tzName = tz2
      ∧ w.viewFields = ⟨y, m, d, h, mi, s, us⟩
      ∧ w2.viewFields = w.viewFields := by
  obtain ⟨o1, ho1⟩ := Option.isSome_iff_exists.mp h1
  obtain ⟨o2, ho2⟩ := Option.isSome_iff_exists.mp h2
  obtain ⟨hy1, hy2, hm1, hm2, hd1, hd2, hh, hmi, hs, hus⟩ := hv
  simp only at hy1 hy2 hm1 hm2 hd1 hd2 hh hmi hs hus
  have hcond : 1 ≤ (y : Int) ∧ (y : Int) ≤ 9999 ∧ 1 ≤ (m : Int) ∧ (m : Int) ≤ 12 ∧
      1 ≤ (d : Int) ∧ (d : Int) ≤ (daysInMonth ((y : Int)).toNat ((m : Int)).toNat : Int) ∧
      0 ≤ (h : Int) ∧ (h : Int) ≤ 23 ∧ 0 ≤ (mi : Int) ∧ (mi : Int) ≤ 59 ∧
      0 ≤ (s : Int) ∧ (s : Int) ≤ 59 ∧ 0 ≤ (us : Int) ∧ (us : Int) ≤ 999999 := by
    simp only [Int.toNat_natCast]
    omega
  have hinit : whenInit (some (y : Int)) (some (m : Int)) (some (d : Int)) (some (h : Int))
      (some (mi : Int)) (some (s : Int)) (some (us : Int)) (some tz) none
      = .ok { viewFields := ⟨y, m, d, h, mi, s, us⟩, tzName := tz,
              utcTS := (tsOfFields ⟨y, m, d, h, mi, s, us⟩ : Int) - offUsec tz,
              cache := none } := by
    simp only [whenInit, ho1, Option.isNone_some, Bool.false_eq_true, if_false]
    rw [if_pos hcond]
    simp only [Int.toNat_natCast]
  refine ⟨{ viewFields := ⟨y, m, d, h, mi, s, us⟩, tzName := tz,
            utcTS := (tsOfFields ⟨y, m, d, h, mi, s, us⟩ : Int) - offUsec tz, cache := none },
          { viewFields := fieldsOfTs ((tsOfFields ⟨y, m, d, h, mi, s, us⟩ : Int)
              - offUsec tz + offUsec tz2).toNat, tzName := tz2,
            utcTS := (tsOfFields ⟨y, m, d, h, mi, s, us⟩ : Int) - offUsec tz, cache := none },
          { viewFields := fieldsOfTs ((tsOfFields ⟨y, m, d, h, mi, s, us⟩ : Int)
              - offUsec tz + offUsec tz).toNat, tzName := tz,
            utcTS := (tsOfFields ⟨y, m, d, h, mi, s, us⟩ : Int) - offUsec tz, cache := none },
          hinit, ?_, ?_, rfl, rfl, rfl, rfl, ?_⟩
  · unfold setTimezone
    rw [ho2]
  · unfold setTimezone
    rw [ho1]
  · have harith : ((tsOfFields ⟨y, m, d, h, mi, s, us⟩ : Int) - offUsec tz + offUsec tz).toNat
        = tsOfFields ⟨y, m, d, h, mi, s, us⟩ := by omega
    show fieldsOfTs ((tsOfFields ⟨y, m, d, h, mi, s, us⟩ : Int) - offUsec tz
      + offUsec tz).toNat = _
    rw [harith]
    exact fields_roundtrip _ ⟨hy1, hy2, hm1, hm2, hd1, hd2, hh, hmi, hs, hus⟩

/-- Witness for C2 at the concrete scenario of the class docstring:
2015-04-22 05:00 in America/New_York viewed in America/Los_Angeles and
back. -/
theorem timezone_view_roundtrip_witness :
    ∃ w w1 w2,
      whenInit (some (2015 : Int)) (some ((4 : Nat) : Int)) (some ((22 : Nat) : Int))
          (some ((5 : Nat) : Int)) (some ((0 : Nat) : Int)) (some ((0 : Nat) : Int))
          (some ((0 : Nat) : Int)) (some "America/New_York") none = .ok w
      ∧ setTimezone w "America/Los_Angeles" = .ok w1 ∧ setTimezone w1 "America/New_York" = .ok w2
      ∧ w1.utcTS = w.utcTS ∧ w2.utcTS = w.utcTS ∧ w1.tzName = "America/Los_Angeles"
      ∧ w.viewFields = ⟨2015, 4, 22, 5, 0, 0, 0⟩
      ∧ w2.viewFields = w.viewFields := by
  have h := timezone_view_roundtrip 2015 4 22 5 0 0 0 "America/New_York" "America/Los_Angeles"
    (by decide) (by decide) (by decide)
  exact h

/-- Claim C5 counterexample: a write of a conflicting non-None value to a
key holding a non-None value does not raise and does not keep the stored
value, it overwrites it. -/
theorem nnd_overwrite_counterexample :
    nndSet [("year", some 2015)] "year" (some 1999) = [("year", some 1999)]
    ∧ (some (1999 : Int) ≠ some (2015 : Int)) := by
  exact ⟨by decide, by decide⟩

theorem find_map_overwrite (l : NND) (k : String) (x : Int) :
    (l.map (fun p => if p.1 == k then (p.1, some x) else p)).find? (fun p => p.1 == k)
      = (l.find? (fun p => p.1 == k)).map (fun p => (p.1, some x)) := by
  induction l with
  | nil => rfl
  | cons p rest ih =>
    cases h : (p.1 == k) with
    | true =>
      simp only [List.map_cons, List.find?_cons, h, eq_self_iff_true, if_true]
      rfl
    | false =>
      simp only [List.map_cons, List.find?_cons, h, Bool.false_eq_true, if_false]
      exact ih

theorem nndGet_append_single (dd : NND) (k : String) (v : Option Int)
    (h : dd.find? (fun p => p.1 == k) = none) : nndGet (dd ++ [(k, v)]) k = some v := by
  induction dd with
  | nil => simp [nndGet, List.find?]
  | cons p rest ih =>
    have hp : (p.1 == k) = false := by
      cases hc : (p.1 == k)
      · rfl
      · simp [List.find?_cons, hc] at h
    have hrest : rest.find? (fun q => q.1 == k) = none := by
      simpa [List.find?_cons, hp] using h
    simpa [nndGet, List.cons_append, List.find?_cons, hp] using ih hrest

theorem nndGet_nndSet (dd : NND) (k : String) (v : Option Int) :
    nndGet (nndSet dd k v)
      k = some (match nndGet dd k with
                | some old => nnSet old v
                | none => v) := by
  cases hf : dd.find? (fun p => p.1 == k) with
  | none =>
    have hg : nndGet dd k = none := by simp [nndGet, hf]
    rw [hg]
    simp only [nndSet, hf, Option.isSome_none, Bool.false_eq_true, if_false]
    exact nndGet_append_single dd k v hf
  | some q =>
    have hg : nndGet dd k = some q.2 := by simp [nndGet, hf]
    cases v with
    | none =>
      simp only [nndSet, hf, Option.isSome_some, if_true]
      rw [hg]
      rfl
    | some x =>
      have hm := find_map_overwrite dd k x
      simp only [nndSet, hf, Option.isSome_some, if_true]
      rw [hg]
      unfold nndGet
      rw [hm, hf]
      rfl

/-- Claim C5 as amended: the reconciliation record accepts every write; a
non-None write overwrites the stored value of a present key and a None
write keeps it, an absent key is inserted; no write raises. Conflict
detection lives one level up, in the potentials scrubber, which does
raise an ambiguity error on two differing non-None candidates. -/
theorem nnd_set_is_overwrite (dd : NND) (k : String) (v : Option Int) :
    nndGet (nndSet dd k v)
        k = some (match nndGet dd k with
                  | some old => nnSet old v
                  | none => v)
    ∧ (∀ a b : Int, a ≠ b → scrub [some a, some b] = .error .ambiguous) := by
  refine ⟨nndGet_nndSet dd k v, fun a b hab => ?_⟩
  simp [scrub, List.filterMap, List.all, hab]

/-- Claim C9 counterexample: the difference of 90-second and 30-second
durations carries the same seconds scalar as a 60-second duration, yet ==
between them is False, because While defines no __eq__ and Python falls
back to object identity. -/
theorem while_eq_counterexample :
    (whileSub (whileMk 0 0 0 90 0 0 0) (whileMk 0 0 0 30 0 0 1) 3).seconds
      = (whileMk 0 0 0 60 0 0 2).seconds
    ∧ whileEqPy (whileSub (whileMk 0 0 0 90 0 0 0) (whileMk 0 0 0 30 0 0 1) 3)
        (whileMk 0 0 0 60 0 0 2) = false := by
  constructor
  · unfold whileSub whileMk
    norm_num
  · decide

/-- Claim C9 as amended: the named-unit accessors are pure linear views of
the seconds scalar (one day reads as 24 hours) and subtraction subtracts
the scalars (90 seconds less 30 seconds has scalar 60), but the ==
operator is identity comparison, not scalar comparison, since While
defines no __eq__. -/
theorem while_linear_views :
    whileGetAttr (whileMk 1 0 0 0 0 0 0) "hours" = .ok 24
    ∧ (whileSub (whileMk 0 0 0 90 0 0 0) (whileMk 0 0 0 30 0 0 1) 3).seconds = 60
    ∧ (∀ a b : WhileObj, whileEqPy a b = true ↔ a.objId = b.objId) := by
  refine ⟨?_, ?_, fun a b => ?_⟩
  · have hfind : whileConversions.find? (fun p => p.1 == "hours") = some ("hours", 3600) := by
      rfl
    unfold whileGetAttr
    rw [hfind]
    show Except.ok ((whileMk 1 0 0 0 0 0 0).seconds / 3600) = Except.ok 24
    norm_num [whileMk]
  · unfold whileSub whileMk
    norm_num
  · simp [whileEqPy]

/-- Claim C8 (code evidence): formatting fills the cache; a subsequent
timezone assignment leaves the cache in place (the setter writes the
misspelled _format_substitor attribute), so formatting after the change
still substitutes the old view: the 24-hour token renders 05 although the
new view hour is 2. -/
theorem format_cache_stale_after_timezone_change :
    ∃ w w1 w2,
      whenInit (some 2015) (some 4) (some 22) (some 5) (some 0) (some 0) (some 0)
          (some "America/New_York") none = .ok w
      ∧ formatWhen w ("13".toList) = ("05".toList, w1)
      ∧ setTimezone w1 "America/Los_Angeles" = .ok w2
      ∧ (formatWhen w2 ("13".toList)).1 = "05".toList
      ∧ w2.viewFields.hour = 2
      ∧ pad2 w2.viewFields.hour = "02".toList
      ∧ (formatWhen (⟨w2.viewFields, w2.tzName, w2.utcTS, none⟩ : When) ("13".toList)).1
          = "02".toList := by
  exact ⟨_, _, _, rfl, rfl, rfl, by decide, by decide, by decide, by decide⟩

/-! ### Ordering lemmas for the Substitutor token sort -/

theorem lexLe_total : ∀ a b : List Char, lexLe a b = true ∨ lexLe b a = true := by
  intro a
  induction a with
  | nil => intro b; left; rfl
  | cons x xs ih =>
    intro b
    cases b with
    | nil => right; rfl
    | cons y ys =>
      by_cases h1 : x.toNat < y.toNat
      · left; simp [lexLe, h1]
      · by_cases h2 : y.toNat < x.toNat
        · right; simp [lexLe, h2]
        · rcases ih ys with h | h
          · left; simp [lexLe, h1, h2, h]
          · right; simp [lexLe, h1, h2, h]

theorem lexLe_trans : ∀ a b c : List Char,
    lexLe a b = true → lexLe b c = true → lexLe a c = true := by
  intro a
  induction a with
  | nil => intro b c _ _; rfl
  | cons x xs ih =>
    intro b c hab hbc
    cases b with
    | nil => simp [lexLe] at hab
    | cons y ys =>
      cases c with
      | nil => simp [lexLe] at hbc
      | cons z zs =>
        by_cases h1 : x.toNat < z.toNat
        · simp [lexLe, h1]
        · by_cases h2 : z.toNat < x.toNat
          · exfalso
            simp only [lexLe] at hab hbc
            split_ifs at hab hbc <;> omega
          · by_cases h3 : x.toNat < y.toNat
            · exfalso
              simp only [lexLe] at hbc
              split_ifs at hbc <;> omega
            · by_cases h4 : y.toNat < x.toNat
              · exfalso
                simp only [lexLe] at hab
                split_ifs at hab <;> omega
              · have h5 : ¬ y.toNat < z.toNat := by omega
                have h6 : ¬ z.toNat < y.toNat := by omega
                simp only [lexLe, h3, h4, if_false] at hab
                simp only [lexLe, h5, h6, if_false] at hbc
                simp only [lexLe, h1, h2, if_false]
                exact ih ys zs hab hbc

theorem keyGe_total (a b : List Char) : keyGe a b = true ∨ keyGe b a = true := by
  unfold keyGe
  by_cases h1 : b.length < a.length
  · left; simp [h1]
  · by_cases h2 : a.length < b.length
    · right; simp [h2, h1]
    · rcases lexLe_total a b with hl | hl
      · right
        rw [if_neg h2, if_neg h1]
        exact hl
      · left
        rw [if_neg h1, if_neg h2]
        exact hl

theorem keyGe_trans (a b c : List Char) (hab : keyGe a b = true) (hbc : keyGe b c = true) :
    keyGe a c = true := by
  unfold keyGe at hab hbc
  by_cases h1 : c.length < a.length
  · simp [keyGe, h1]
  · by_cases h2 : a.length < c.length
    · exfalso
      split_ifs at hab hbc <;> simp_all <;> omega
    · by_cases hb1 : b.length < a.length
      · exfalso
        split_ifs at hbc <;> simp_all <;> omega
      · by_cases hb2 : a.length < b.length
        · exfalso
          split_ifs at hab <;> simp_all <;> omega
        · rw [if_neg hb1, if_neg hb2] at hab
          rw [if_neg (by omega), if_neg (by omega)] at hbc
          unfold keyGe
          rw [if_neg h1, if_neg h2]
          exact lexLe_trans c b a hbc hab

theorem mem_insertTok {c x : List Char} {l : List (List Char)} :
    c ∈ insertTok x l ↔ c = x ∨ c ∈ l := by
  induction l with
  | nil => simp [insertTok]
  | cons y ys ih =>
    by_cases h : keyGe x y = true
    · simp [insertTok, h]
      all_goals tauto
    · simp [insertTok, h, ih]
      all_goals tauto

theorem pairwise_insertTok {x : List Char} {l : List (List Char)}
    (h : l.Pairwise (fun a b => keyGe a b = true)) :
    (insertTok x l).Pairwise (fun a b => keyGe a b = true) := by
  induction l with
  | nil => simp [insertTok]
  | cons y ys ih =>
    rw [List.pairwise_cons] at h
    obtain ⟨hy, hys⟩ := h
    by_cases hk : keyGe x y = true
    · have : (insertTok x (y :: ys)) = x :: y :: ys := by simp [insertTok, hk]
      rw [this, List.pairwise_cons]
      constructor
      · intro z hz
        rcases List.mem_cons.mp hz with hz | hz
        · rw [hz]; exact hk
        · exact keyGe_trans x y z hk (hy z hz)
      · rw [List.pairwise_cons]
        exact ⟨hy, hys⟩
    · have : (insertTok x (y :: ys)) = y :: insertTok x ys := by simp [insertTok, hk]
      rw [this, List.pairwise_cons]
      constructor
      · intro z hz
        rcases mem_insertTok.mp hz with hz | hz
        · rw [hz]
          rcases keyGe_total x y with ht | ht
          · exact absurd ht hk
          · exact ht
        · exact hy z hz
      · exact ih hys

theorem sortTokens_pairwise (l : List (List Char)) :
    (sortTokens l).Pairwise (fun a b => keyGe a b = true) := by
  induction l with
  | nil => simp [sortTokens]
  | cons x xs ih => exact pairwise_insertTok ih

/-! ### Single-pass scan lemmas -/

theorem scanPieces_nil (toks : List (List Char)) (fuel : Nat) :
    scanPieces toks fuel [] = [] := by
  cases fuel <;> rfl

theorem scanPieces_fuel (toks : List (List Char)) :
    ∀ (f1 : Nat) (input : List Char) (f2 : Nat), input.length ≤ f1 → input.length ≤ f2 →
      scanPieces toks f1 input = scanPieces toks f2 input := by
  intro f1
  induction f1 with
  | zero =>
    intro input f2 h1 _
    have : input = [] := List.length_eq_zero.mp (Nat.le_zero.mp h1)
    rw [this, scanPieces_nil, scanPieces_nil]
  | succ f ih =>
    intro input f2 h1 h2
    cases input with
    | nil => rw [scanPieces_nil, scanPieces_nil]
    | cons c rest =>
      cases f2 with
      | zero => simp at h2
      | succ f2p =>
        simp only [scanPieces]
        cases hft : findTok toks (c :: rest) with
        | none =>
          simp only
          rw [ih rest f2p (by simp at h1; omega) (by simp at h2; omega)]
        | some t =>
          simp only
          rw [ih (rest.drop (t.length - 1)) f2p
            (by simp [List.length_drop] at h1 ⊢; omega)
            (by simp [List.length_drop] at h2 ⊢; omega)]

theorem applySubst_012_step (f : List Char → List Char) (rest : List Char) :
    applySubst [['0', '1', '2'], ['1', '2']] f ('0' :: '1' :: '2' :: rest)
      = f ['0', '1', '2'] ++ applySubst [['0', '1', '2'], ['1', '2']] f rest := by
  unfold applySubst
  have h1 : scanPieces [['0', '1', '2'], ['1', '2']] (('0' :: '1' :: '2' :: rest).length)
      ('0' :: '1' :: '2' :: rest)
      = Sum.inl ['0', '1', '2']
          :: scanPieces [['0', '1', '2'], ['1', '2']] (rest.length + 2) rest := by
    rfl
  rw [h1, scanPieces_fuel _ (rest.length + 2) rest rest.length (by omega) (le_refl _)]
  rfl

/-- Claim C3: the Substitution Engine orders its alternation by the sort
key (length, token) in reverse — every sorted token list is pairwise
ordered by that key, and the token set holding both the 2-digit and the
3-digit token puts the 3-digit token first — so a subject position
starting a 3-character token occurrence is consumed whole by the longer
token in the single left-to-right pass, never split by the 2-character
token; and replacement text is emitted without rescanning, as the
docstring example shows (foo and bar swap in one pass instead of
cascading). -/
theorem substitutor_longest_match_first :
    (∀ toks : List (List Char), (sortTokens toks).Pairwise (fun a b => keyGe a b = true))
    ∧ sortTokens [['1', '2'], ['0', '1', '2']] = [['0', '1', '2'], ['1', '2']]
    ∧ (∀ (f : List Char → List Char) (rest : List Char),
        applySubst (sortTokens [['1', '2'], ['0', '1', '2']]) f ('0' :: '1' :: '2' :: rest)
          = f ['0', '1', '2'] ++ applySubst (sortTokens [['1', '2'], ['0', '1', '2']]) f rest)
    ∧ subApply [("foo".toList, "bar".toList), ("bar".toList, "foo".toList),
        ("and".toList, "or".toList)] ("foo is bar, and bar is foo".toList)
      = "bar is foo, or foo is bar".toList := by
  refine ⟨sortTokens_pairwise, by decide, fun f rest => ?_, by decide⟩
  have hs : sortTokens [['1', '2'], ['0', '1', '2']] = [['0', '1', '2'], ['1', '2']] := by
    decide
  rw [hs]
  exact applySubst_012_step f rest

/-! ### Matcher step lemmas -/

theorem matchR_cat (a b : RE) (input : List Char) (k : List Char → Groups → Option Groups)
    (gs : Groups) :
    matchR (.cat a b) input k gs = matchR a input (fun rest gs2 => matchR b rest k gs2) gs := rfl

theorem matchR_grp (n : String) (r : RE) (input : List Char)
    (k : List Char → Groups → Option Groups) (gs : Groups) :
    matchR (.grp n r) input k gs
      = matchR r input
          (fun rest gs2 => k rest ((n, input.take (input.length - rest.length)) :: gs2)) gs := rfl

theorem matchR_lit1 (c : Char) (rest : List Char) (k : List Char → Groups → Option Groups)
    (gs : Groups) :
    matchR (.lit [c]) (c :: rest) k gs = k rest gs := by
  simp [matchR, isPre]

theorem matchR_cls (p : Char → Bool) (c : Char) (rest : List Char)
    (k : List Char → Groups → Option Groups) (gs : Groups) (h : p c = true) :
    matchR (.cls p) (c :: rest) k gs = k rest gs := by
  simp [matchR, h]

theorem matchR_grpD2 (n : String) (a b : Char) (rest : List Char)
    (k : List Char → Groups → Option Groups) (gs : Groups)
    (ha : isDig a = true) (hb : isDig b = true) :
    matchR (grpD2 n) (a :: b :: rest) k gs = k rest ((n, [a, b]) :: gs) := by
  have hlen : rest.length + 1 + 1 - rest.length = 2 := by omega
  simp [grpD2, dig, matchR, ha, hb, hlen]

theorem matchR_grpD3 (n : String) (a b c : Char) (rest : List Char)
    (k : List Char → Groups → Option Groups) (gs : Groups)
    (ha : isDig a = true) (hb : isDig b = true) (hc : isDig c = true) :
    matchR (grpD3 n) (a :: b :: c :: rest) k gs = k rest ((n, [a, b, c]) :: gs) := by
  have hlen : rest.length + 1 + 1 + 1 - rest.length = 3 := by omega
  simp [grpD3, dig, matchR, ha, hb, hc, hlen]

theorem matchR_grpD6 (n : String) (a b c d e f : Char) (rest : List Char)
    (k : List Char → Groups → Option Groups) (gs : Groups)
    (ha : isDig a = true) (hb : isDig b = true) (hc : isDig c = true)
    (hd : isDig d = true) (he : isDig e = true) (hf : isDig f = true) :
    matchR (grpD6 n) (a :: b :: c :: d :: e :: f :: rest) k gs
      = k rest ((n, [a, b, c, d, e, f]) :: gs) := by
  have hlen : rest.length + 1 + 1 + 1 + 1 + 1 + 1 - rest.length = 6 := by omega
  simp [grpD6, dig, matchR, ha, hb, hc, hd, he, hf, hlen]

theorem matchR_grpD4 (n : String) (a b c d : Char) (rest : List Char)
    (k : List Char → Groups → Option Groups) (gs : Groups) (v : Groups)
    (ha : isDig a = true) (hb : isDig b = true) (hc : isDig c = true) (hd : isDig d = true)
    (hk : k rest ((n, [a, b, c, d]) :: gs) = some v) :
    matchR (grpD4 n) (a :: b :: c :: d :: rest) k gs = some v := by
  have hlen : rest.length + 1 + 1 + 1 + 1 - rest.length = 4 := by omega
  simp [grpD4, dig, matchR, ha, hb, hc, hd, hlen, hk]

theorem matchR_tz (c : Char) (cs : List Char) (k : List Char → Groups → Option Groups)
    (gs : Groups) (v : Groups)
    (hchars : (c :: cs).all isTzChar = true)
    (hZ : ('Z' == c) = false) (hz : ('z' == c) = false)
    (hk : k [] (("timezone", c :: cs) :: gs) = some v) :
    matchR tzRE (c :: cs) k gs = some v := by
  have htw : (c :: cs).takeWhile isTzChar = c :: cs := by
    rw [List.takeWhile_eq_self_iff]
    exact fun a ha => List.all_eq_true.mp hchars a ha
  have hdrop : (c :: cs).drop (cs.length + 1) = [] := by
    rw [show cs.length + 1 = (c :: cs).length by simp]
    exact List.drop_length _
  have htake : List.take (cs.length + 1 - List.length ([] : List Char)) (c :: cs) = c :: cs := by
    simp
  simp only [tzRE, matchR, isPre, hZ, hz, Bool.false_and, Bool.false_eq_true, if_false,
    htw, List.length_cons, plusTry, hdrop, htake, hk]

theorem refRE_eq : templateRE refTemplate
    = reChain [grpD4 "_1776", .lit ['-'], grpD2 "_07", .lit ['-'], grpD2 "_04", .lit [' '],
        grpD2 "_13", .lit [':'], grpD2 "_02", .lit [':'], grpD2 "_03", .cls (fun _ => true),
        grpD6 "_012345", tzRE] := rfl

theorem y4y2RE_eq : templateRE tmplY4Y2
    = reChain [grpD4 "_1776", .lit ['-'], grpD2 "_07", .lit ['-'], grpD2 "_04", .lit [' '],
        grpD2 "_76"] := rfl

theorem y2RE_eq : templateRE tmplY2
    = reChain [grpD2 "_76", .lit ['-'], grpD2 "_07", .lit ['-'], grpD2 "_04"] := rfl

theorem isDig_dChar_mod (n : Nat) : isDig (dChar (n % 10)) = true :=
  isDig_dChar (Nat.mod_lt _ (by norm_num))

theorem refMatch (y m d h mi s us : Nat) (c : Char) (cs : List Char)
    (hy : y < 10000) (hm : m < 100) (hd : d < 100) (hh : h < 100) (hmi : mi < 100)
    (hs : s < 100) (hus : us < 1000000)
    (hchars : (c :: cs).all isTzChar = true)
    (hZ : ('Z' == c) = false) (hz : ('z' == c) = false) :
    reMatch (templateRE refTemplate)
        (pad4 y ++ '-' :: (pad2 m ++ '-' :: (pad2 d ++ ' ' :: (pad2 h ++ ':' :: (pad2 mi
          ++ ':' :: (pad2 s ++ '.' :: (pad6 us ++ (c :: cs))))))))
      = some [("timezone", c :: cs), ("_012345", pad6 us), ("_03", pad2 s), ("_02", pad2 mi),
              ("_13", pad2 h), ("_04", pad2 d), ("_07", pad2 m), ("_1776", pad4 y)] := by
  have hq1 : isDig (dChar (y / 1000)) = true := isDig_dChar (by omega)
  have hq2 : isDig (dChar (m / 10)) = true := isDig_dChar (by omega)
  have hq3 : isDig (dChar (d / 10)) = true := isDig_dChar (by omega)
  have hq4 : isDig (dChar (h / 10)) = true := isDig_dChar (by omega)
  have hq5 : isDig (dChar (mi / 10)) = true := isDig_dChar (by omega)
  have hq6 : isDig (dChar (s / 10)) = true := isDig_dChar (by omega)
  have hq7 : isDig (dChar (us / 100000)) = true := isDig_dChar (by omega)
  rw [refRE_eq]
  unfold reMatch
  simp only [reChain, pad4, pad2, pad6, List.cons_append, List.nil_append]
  rw [matchR_cat]
  refine matchR_grpD4 _ _ _ _ _ _ _ _ _ hq1 (isDig_dChar_mod _) (isDig_dChar_mod _)
    (isDig_dChar_mod _) ?_
  simp only [matchR_cat, matchR_lit1, matchR_grpD2, matchR_grpD6, matchR_cls,
    isDig_dChar_mod, hq2, hq3, hq4, hq5, hq6, hq7]
  exact matchR_tz _ _ _ _ _ hchars hZ hz rfl

theorem y4y2Match (y m d yy : Nat) (hy : y < 10000) (hm : m < 100) (hd : d < 100)
    (hyy : yy < 100) :
    reMatch (templateRE tmplY4Y2)
        (pad4 y ++ '-' :: (pad2 m ++ '-' :: (pad2 d ++ ' ' :: pad2 yy)))
      = some [("_76", pad2 yy), ("_04", pad2 d), ("_07", pad2 m), ("_1776", pad4 y)] := by
  have hq1 : isDig (dChar (y / 1000)) = true := isDig_dChar (by omega)
  have hq2 : isDig (dChar (m / 10)) = true := isDig_dChar (by omega)
  have hq3 : isDig (dChar (d / 10)) = true := isDig_dChar (by omega)
  have hq4 : isDig (dChar (yy / 10)) = true := isDig_dChar (by omega)
  rw [y4y2RE_eq]
  unfold reMatch
  simp only [reChain, pad4, pad2, List.cons_append, List.nil_append]
  rw [matchR_cat]
  refine matchR_grpD4 _ _ _ _ _ _ _ _ _ hq1 (isDig_dChar_mod _) (isDig_dChar_mod _)
    (isDig_dChar_mod _) ?_
  simp only [matchR_cat, matchR_lit1, matchR_grpD2, isDig_dChar_mod, hq2, hq3, hq4]
  rfl

theorem y2Match (yy m d : Nat) (hyy : yy < 100) (hm : m < 100) (hd : d < 100) :
    reMatch (templateRE tmplY2)
        (pad2 yy ++ '-' :: (pad2 m ++ '-' :: pad2 d))
      = some [("_04", pad2 d), ("_07", pad2 m), ("_76", pad2 yy)] := by
  have hq2 : isDig (dChar (m / 10)) = true := isDig_dChar (by omega)
  have hq3 : isDig (dChar (d / 10)) = true := isDig_dChar (by omega)
  have hq4 : isDig (dChar (yy / 10)) = true := isDig_dChar (by omega)
  rw [y2RE_eq]
  unfold reMatch
  simp only [reChain, pad2, List.cons_append, List.nil_append]
  simp only [matchR_cat, matchR_lit1, matchR_grpD2, isDig_dChar_mod, hq2, hq3, hq4]
  rfl

/-! ### Pipeline evaluation lemmas -/

theorem whenInit_valid (y m d h mi s us : Nat) (tzn : String) (o : Int)
    (hv : ValidFields ⟨y, m, d, h, mi, s, us⟩) (ho : offMinutes tzn = some o) :
    whenInit (some (y : Int)) (some (m : Int)) (some (d : Int)) (some (h : Int))
        (some (mi : Int)) (some (s : Int)) (some (us : Int)) (some tzn) none
      = .ok { viewFields := ⟨y, m, d, h, mi, s, us⟩, tzName := tzn,
              utcTS := (tsOfFields ⟨y, m, d, h, mi, s, us⟩ : Int) - offUsec tzn,
              cache := none } := by
  obtain ⟨hy1, hy2, hm1, hm2, hd1, hd2, hh, hmi, hs, hus⟩ := hv
  simp only at hy1 hy2 hm1 hm2 hd1 hd2 hh hmi hs hus
  have hcond : 1 ≤ (y : Int) ∧ (y : Int) ≤ 9999 ∧ 1 ≤ (m : Int) ∧ (m : Int) ≤ 12 ∧
      1 ≤ (d : Int) ∧ (d : Int) ≤ (daysInMonth ((y : Int)).toNat ((m : Int)).toNat : Int) ∧
      0 ≤ (h : Int) ∧ (h : Int) ≤ 23 ∧ 0 ≤ (mi : Int) ∧ (mi : Int) ≤ 59 ∧
      0 ≤ (s : Int) ∧ (s : Int) ≤ 59 ∧ 0 ≤ (us : Int) ∧ (us : Int) ≤ 999999 := by
    simp only [Int.toNat_natCast]
    omega
  simp only [whenInit, ho, Option.isNone_some, Bool.false_eq_true, if_false]
  rw [if_pos hcond]
  simp only [Int.toNat_natCast]

theorem scrub_pair_eq (a b : Int) (h : a = b) : scrub [some a, some b] = .ok (some a) := by
  simp [scrub, List.filterMap, h]

theorem scrub_pair_ne (a b : Int) (h : ¬ a = b) :
    scrub [some a, some b] = .error .ambiguous := by
  simp [scrub, List.filterMap, h]

theorem parse_ref_utc (y m d h mi s us : Nat)
    (hv : ValidFields ⟨y, m, d, h, mi, s, us⟩) :
    parseWith (pad4 y ++ '-' :: (pad2 m ++ '-' :: (pad2 d ++ ' ' :: (pad2 h ++ ':' :: (pad2 mi
        ++ ':' :: (pad2 s ++ '.' :: (pad6 us ++ ['u', 't', 'c']))))))) refTemplate none none
      = .ok { viewFields := ⟨y, m, d, h, mi, s, us⟩, tzName := "utc",
              utcTS := (tsOfFields ⟨y, m, d, h, mi, s, us⟩ : Int) - offUsec "utc",
              cache := none } := by
  obtain ⟨hy1, hy2, hm1, hm2, hd1, hd2, hh2, hmi2, hs2, hus2⟩ := hv
  simp only at hy1 hy2 hm1 hm2 hd1 hd2 hh2 hmi2 hs2 hus2
  have hdim : daysInMonth y m ≤ 31 := by
    unfold daysInMonth
    split_ifs <;> omega
  have hmm := refMatch y m d h mi s us 'u' ['t', 'c'] (by omega) (by omega) (by omega)
    (by omega) (by omega) (by omega) (by omega) (by decide) (by decide) (by decide)
  have hstep : parseWith (pad4 y ++ '-' :: (pad2 m ++ '-' :: (pad2 d ++ ' ' :: (pad2 h
        ++ ':' :: (pad2 mi ++ ':' :: (pad2 s ++ '.' :: (pad6 us ++ ['u', 't', 'c'])))))))
        refTemplate none none
      = whenInit (some (strToNat (pad4 y) : Int)) (some (strToNat (pad2 m) : Int))
          (some (strToNat (pad2 d) : Int)) (some (strToNat (pad2 h) : Int))
          (some (strToNat (pad2 mi) : Int)) (some (strToNat (pad2 s) : Int))
          (some (strToNat (pad6 us) : Int)) (some "utc") none := by
    unfold parseWith fromString
    rw [hmm]
    rfl
  rw [hstep, strToNat_pad4 (by omega), strToNat_pad2 (by omega), strToNat_pad2 (by omega),
    strToNat_pad2 (by omega), strToNat_pad2 (by omega), strToNat_pad2 (by omega),
    strToNat_pad6 (by omega)]
  exact whenInit_valid y m d h mi s us "utc" _
    ⟨hy1, hy2, hm1, hm2, hd1, hd2, hh2, hmi2, hs2, hus2⟩ rfl

theorem parse_ref_ny (y m d h mi s us : Nat)
    (hv : ValidFields ⟨y, m, d, h, mi, s, us⟩) :
    parseWith (pad4 y ++ '-' :: (pad2 m ++ '-' :: (pad2 d ++ ' ' :: (pad2 h ++ ':' :: (pad2 mi
        ++ ':' :: (pad2 s ++ '.' :: (pad6 us ++ ['A', 'm', 'e', 'r', 'i', 'c', 'a', '/', 'N', 'e', 'w', '_', 'Y', 'o', 'r', 'k']))))))) refTemplate none none
      = .ok { viewFields := ⟨y, m, d, h, mi, s, us⟩, tzName := "America/New_York",
              utcTS := (tsOfFields ⟨y, m, d, h, mi, s, us⟩ : Int) - offUsec "America/New_York",
              cache := none } := by
  obtain ⟨hy1, hy2, hm1, hm2, hd1, hd2, hh2, hmi2, hs2, hus2⟩ := hv
  simp only at hy1 hy2 hm1 hm2 hd1 hd2 hh2 hmi2 hs2 hus2
  have hdim : daysInMonth y m ≤ 31 := by
    unfold daysInMonth
    split_ifs <;> omega
  have hmm := refMatch y m d h mi s us 'A' ['m', 'e', 'r', 'i', 'c', 'a', '/', 'N', 'e', 'w', '_', 'Y', 'o', 'r', 'k'] (by omega) (by omega) (by omega)
    (by omega) (by omega) (by omega) (by omega) (by decide) (by decide) (by decide)
  have hstep : parseWith (pad4 y ++ '-' :: (pad2 m ++ '-' :: (pad2 d ++ ' ' :: (pad2 h
        ++ ':' :: (pad2 mi ++ ':' :: (pad2 s ++ '.' :: (pad6 us ++ ['A', 'm', 'e', 'r', 'i', 'c', 'a', '/', 'N', 'e', 'w', '_', 'Y', 'o', 'r', 'k'])))))))
        refTemplate none none
      = whenInit (some (strToNat (pad4 y) : Int)) (some (strToNat (pad2 m) : Int))
          (some (strToNat (pad2 d) : Int)) (some (strToNat (pad2 h) : Int))
          (some (strToNat (pad2 mi) : Int)) (some (strToNat (pad2 s) : Int))
          (some (strToNat (pad6 us) : Int)) (some "America/New_York") none := by
    unfold parseWith fromString
    rw [hmm]
    rfl
  rw [hstep, strToNat_pad4 (by omega), strToNat_pad2 (by omega), strToNat_pad2 (by omega),
    strToNat_pad2 (by omega), strToNat_pad2 (by omega), strToNat_pad2 (by omega),
    strToNat_pad6 (by omega)]
  exact whenInit_valid y m d h mi s us "America/New_York" _
    ⟨hy1, hy2, hm1, hm2, hd1, hd2, hh2, hmi2, hs2, hus2⟩ rfl

theorem parse_ref_la (y m d h mi s us : Nat)
    (hv : ValidFields ⟨y, m, d, h, mi, s, us⟩) :
    parseWith (pad4 y ++ '-' :: (pad2 m ++ '-' :: (pad2 d ++ ' ' :: (pad2 h ++ ':' :: (pad2 mi
        ++ ':' :: (pad2 s ++ '.' :: (pad6 us ++ ['A', 'm', 'e', 'r', 'i', 'c', 'a', '/', 'L', 'o', 's', '_', 'A', 'n', 'g', 'e', 'l', 'e', 's']))))))) refTemplate none none
      = .ok { viewFields := ⟨y, m, d, h, mi, s, us⟩, tzName := "America/Los_Angeles",
              utcTS := (tsOfFields ⟨y, m, d, h, mi, s, us⟩ : Int) - offUsec "America/Los_Angeles",
              cache := none } := by
  obtain ⟨hy1, hy2, hm1, hm2, hd1, hd2, hh2, hmi2, hs2, hus2⟩ := hv
  simp only at hy1 hy2 hm1 hm2 hd1 hd2 hh2 hmi2 hs2 hus2
  have hdim : daysInMonth y m ≤ 31 := by
    unfold daysInMonth
    split_ifs <;> omega
  have hmm := refMatch y m d h mi s us 'A' ['m', 'e', 'r', 'i', 'c', 'a', '/', 'L', 'o', 's', '_', 'A', 'n', 'g', 'e', 'l', 'e', 's'] (by omega) (by omega) (by omega)
    (by omega) (by omega) (by omega) (by omega) (by decide) (by decide) (by decide)
  have hstep : parseWith (pad4 y ++ '-' :: (pad2 m ++ '-' :: (pad2 d ++ ' ' :: (pad2 h
        ++ ':' :: (pad2 mi ++ ':' :: (pad2 s ++ '.' :: (pad6 us ++ ['A', 'm', 'e', 'r', 'i', 'c', 'a', '/', 'L', 'o', 's', '_', 'A', 'n', 'g', 'e', 'l', 'e', 's'])))))))
        refTemplate none none
      = whenInit (some (strToNat (pad4 y) : Int)) (some (strToNat (pad2 m) : Int))
          (some (strToNat (pad2 d) : Int)) (some (strToNat (pad2 h) : Int))
          (some (strToNat (pad2 mi) : Int)) (some (strToNat (pad2 s) : Int))
          (some (strToNat (pad6 us) : Int)) (some "America/Los_Angeles") none := by
    unfold parseWith fromString
    rw [hmm]
    rfl
  rw [hstep, strToNat_pad4 (by omega), strToNat_pad2 (by omega), strToNat_pad2 (by omega),
    strToNat_pad2 (by omega), strToNat_pad2 (by omega), strToNat_pad2 (by omega),
    strToNat_pad6 (by omega)]
  exact whenInit_valid y m d h mi s us "America/Los_Angeles" _
    ⟨hy1, hy2, hm1, hm2, hd1, hd2, hh2, hmi2, hs2, hus2⟩ rfl

theorem parse_ref_chi (y m d h mi s us : Nat)
    (hv : ValidFields ⟨y, m, d, h, mi, s, us⟩) :
    parseWith (pad4 y ++ '-' :: (pad2 m ++ '-' :: (pad2 d ++ ' ' :: (pad2 h ++ ':' :: (pad2 mi
        ++ ':' :: (pad2 s ++ '.' :: (pad6 us ++ ['A', 'm', 'e', 'r', 'i', 'c', 'a', '/', 'C', 'h', 'i', 'c', 'a', 'g', 'o']))))))) refTemplate none none
      = .ok { viewFields := ⟨y, m, d, h, mi, s, us⟩, tzName := "America/Chicago",
              utcTS := (tsOfFields ⟨y, m, d, h, mi, s, us⟩ : Int) - offUsec "America/Chicago",
              cache := none } := by
  obtain ⟨hy1, hy2, hm1, hm2, hd1, hd2, hh2, hmi2, hs2, hus2⟩ := hv
  simp only at hy1 hy2 hm1 hm2 hd1 hd2 hh2 hmi2 hs2 hus2
  have hdim : daysInMonth y m ≤ 31 := by
    unfold daysInMonth
    split_ifs <;> omega
  have hmm := refMatch y m d h mi s us 'A' ['m', 'e', 'r', 'i', 'c', 'a', '/', 'C', 'h', 'i', 'c', 'a', 'g', 'o'] (by omega) (by omega) (by omega)
    (by omega) (by omega) (by omega) (by omega) (by decide) (by decide) (by decide)
  have hstep : parseWith (pad4 y ++ '-' :: (pad2 m ++ '-' :: (pad2 d ++ ' ' :: (pad2 h
        ++ ':' :: (pad2 mi ++ ':' :: (pad2 s ++ '.' :: (pad6 us ++ ['A', 'm', 'e', 'r', 'i', 'c', 'a', '/', 'C', 'h', 'i', 'c', 'a', 'g', 'o'])))))))
        refTemplate none none
      = whenInit (some (strToNat (pad4 y) : Int)) (some (strToNat (pad2 m) : Int))
          (some (strToNat (pad2 d) : Int)) (some (strToNat (pad2 h) : Int))
          (some (strToNat (pad2 mi) : Int)) (some (strToNat (pad2 s) : Int))
          (some (strToNat (pad6 us) : Int)) (some "America/Chicago") none := by
    unfold parseWith fromString
    rw [hmm]
    rfl
  rw [hstep, strToNat_pad4 (by omega), strToNat_pad2 (by omega), strToNat_pad2 (by omega),
    strToNat_pad2 (by omega), strToNat_pad2 (by omega), strToNat_pad2 (by omega),
    strToNat_pad6 (by omega)]
  exact whenInit_valid y m d h mi s us "America/Chicago" _
    ⟨hy1, hy2, hm1, hm2, hd1, hd2, hh2, hmi2, hs2, hus2⟩ rfl

theorem formatKeys_eq (F : Fields) (tz : String) :
    (formatSubs F tz).map (·.1) = refKeys := rfl

theorem sortKeys_eq : sortTokens refKeys = refTokens := by decide

/-- Scanning the reference template against the sorted format tokens
isolates the year, month, day, hour, minute, second, microsecond and
timezone-name tokens, the separators passing through. -/
theorem refScan_eq :
    scanPieces refTokens refTemplate.length refTemplate
      = [.inl "1776".toList, .inr '-', .inl "07".toList, .inr '-',
         .inl "04".toList, .inr ' ', .inl "13".toList, .inr ':',
         .inl "02".toList, .inr ':', .inl "03".toList, .inr '.',
         .inl "012345".toList, .inl "America/New_York".toList] := by decide

/-- Rendering the reference template from a substitution mapping of view
fields and a timezone name: the single pass replaces exactly the year,
month, day, 24-hour, minute, second, microsecond and timezone-name tokens
of the template. -/
theorem format_ref (F : Fields) (tz : String) :
    subApply (formatSubs F tz) refTemplate
      = pad4 F.year ++ '-' :: (pad2 F.month ++ '-' :: (pad2 F.day ++ ' ' :: (pad2 F.hour
          ++ ':' :: (pad2 F.minute ++ ':' :: (pad2 F.second ++ '.' :: (pad6 F.micro
          ++ (tz.toList ++ []))))))) := by
  unfold subApply applySubst
  rw [formatKeys_eq, sortKeys_eq, refScan_eq]
  rfl

theorem tz_cases (tz : String) (h : (offMinutes tz).isSome = true) :
    tz = "utc" ∨ tz = "America/New_York" ∨ tz = "America/Los_Angeles"
      ∨ tz = "America/Chicago" := by
  by_cases h1 : tz = "utc"
  · exact Or.inl h1
  by_cases h2 : tz = "America/New_York"
  · exact Or.inr (Or.inl h2)
  by_cases h3 : tz = "America/Los_Angeles"
  · exact Or.inr (Or.inr (Or.inl h3))
  by_cases h4 : tz = "America/Chicago"
  · exact Or.inr (Or.inr (Or.inr h4))
  exfalso
  have b1 : ("utc" == tz) = false := beq_eq_false_iff_ne.mpr (fun hc => h1 hc.symm)
  have b2 : ("America/New_York" == tz) = false := beq_eq_false_iff_ne.mpr (fun hc => h2 hc.symm)
  have b3 : ("America/Los_Angeles" == tz) = false :=
    beq_eq_false_iff_ne.mpr (fun hc => h3 hc.symm)
  have b4 : ("America/Chicago" == tz) = false := beq_eq_false_iff_ne.mpr (fun hc => h4 hc.symm)
  simp [offMinutes, timezones, List.find?_cons, b1, b2, b3, b4] at h

/-- Claim C4: formatting any well-formed Instant Value with the reference
template and parsing the result against the same template succeeds and
yields a When equal to the original under ==, that is with the same
UTC-anchored field tuple. -/
theorem format_parse_roundtrip (w : When) (hwf : WFWhen w) :
    ∃ w2, parseWith (formatWhen w refTemplate).1 refTemplate none none = .ok w2
      ∧ whenEq w2 w = true := by
  obtain ⟨⟨hvF, hoff, hutc⟩, hcache⟩ := hwf
  have hrender : ∃ F2 tz2, ConsistentView w.utcTS F2 tz2 ∧
      (formatWhen w refTemplate).1 = subApply (formatSubs F2 tz2) refTemplate := by
    rcases hcache with h | ⟨F2, tz2, hc, he⟩
    · refine ⟨w.viewFields, w.tzName, ⟨hvF, hoff, hutc⟩, ?_⟩
      simp [formatWhen, h]
    · refine ⟨F2, tz2, hc, ?_⟩
      simp [formatWhen, he]
  obtain ⟨F2, tz2, ⟨hv2, hoff2, hutc2⟩, hfmt⟩ := hrender
  rw [hfmt, format_ref]
  have hF2 : ValidFields ⟨F2.year, F2.month, F2.day, F2.hour, F2.minute, F2.second,
      F2.micro⟩ := hv2
  rcases tz_cases tz2 hoff2 with h | h | h | h <;> subst h
  · refine ⟨_, parse_ref_utc F2.year F2.month F2.day F2.hour F2.minute F2.second
      F2.micro hF2, ?_⟩
    simp only [whenEq, utcFieldsOf]
    rw [show ((tsOfFields ⟨F2.year, F2.month, F2.day, F2.hour, F2.minute, F2.second,
      F2.micro⟩ : Int) - offUsec "utc") = w.utcTS from hutc2.symm]
    simp
  · refine ⟨_, parse_ref_ny F2.year F2.month F2.day F2.hour F2.minute F2.second
      F2.micro hF2, ?_⟩
    simp only [whenEq, utcFieldsOf]
    rw [show ((tsOfFields ⟨F2.year, F2.month, F2.day, F2.hour, F2.minute, F2.second,
      F2.micro⟩ : Int) - offUsec "America/New_York") = w.utcTS from hutc2.symm]
    simp
  · refine ⟨_, parse_ref_la F2.year F2.month F2.day F2.hour F2.minute F2.second
      F2.micro hF2, ?_⟩
    simp only [whenEq, utcFieldsOf]
    rw [show ((tsOfFields ⟨F2.year, F2.month, F2.day, F2.hour, F2.minute, F2.second,
      F2.micro⟩ : Int) - offUsec "America/Los_Angeles") = w.utcTS from hutc2.symm]
    simp
  · refine ⟨_, parse_ref_chi F2.year F2.month F2.day F2.hour F2.minute F2.second
      F2.micro hF2, ?_⟩
    simp only [whenEq, utcFieldsOf]
    rw [show ((tsOfFields ⟨F2.year, F2.month, F2.day, F2.hour, F2.minute, F2.second,
      F2.micro⟩ : Int) - offUsec "America/Chicago") = w.utcTS from hutc2.symm]
    simp

/-- Witness for C4 at a concrete instant viewed in America/New_York. -/
theorem format_parse_roundtrip_witness :
    ∃ w2, parseWith (formatWhen ⟨⟨2015, 4, 22, 5, 30, 59, 23⟩, "America/New_York",
        (tsOfFields ⟨2015, 4, 22, 5, 30, 59, 23⟩ : Int) - offUsec "America/New_York",
        none⟩ refTemplate).1 refTemplate none none = .ok w2
      ∧ whenEq w2 ⟨⟨2015, 4, 22, 5, 30, 59, 23⟩, "America/New_York",
        (tsOfFields ⟨2015, 4, 22, 5, 30, 59, 23⟩ : Int) - offUsec "America/New_York",
        none⟩ = true := by
  exact format_parse_roundtrip _ ⟨⟨by decide, by decide, rfl⟩, Or.inl rfl⟩

theorem ebind_ok {A B : Type} (a : A) (f : A → Except Err B) :
    (Except.ok a : Except Err A) >>= f = f a := rfl

theorem processYear_both (s t : List Char) (c : Int)
    (h : ¬ ((strToNat s : Int) - c).natAbs > 100) :
    processYear (some s) (some t) (some c)
      = .ok (some (strToNat s : Int), some (c + (strToNat t : Int))) := by
  show (if ((strToNat s : Int) - c).natAbs > 100 then (Except.error Err.ambiguous)
        else Except.ok (some (strToNat s : Int), some (c + (strToNat t : Int))))
      = Except.ok (some (strToNat s : Int), some (c + (strToNat t : Int)))
  rw [if_neg h]

theorem processYear_far (s t : List Char) (c : Int)
    (h : ((strToNat s : Int) - c).natAbs > 100) :
    processYear (some s) (some t) (some c) = .error .ambiguous := by
  show (if ((strToNat s : Int) - c).natAbs > 100 then (Except.error Err.ambiguous)
        else Except.ok (some (strToNat s : Int), some (c + (strToNat t : Int))))
      = Except.error Err.ambiguous
  rw [if_pos h]

/-- Claim C7: a parse whose template carries only the 2-digit year token,
matching a 2-digit year, with no century argument supplied, fails with the
missing-century error (the raise at the century-is-None check of
_process_year). -/
theorem two_digit_year_without_century (yy m d : Nat)
    (hyy : yy < 100) (hm : m < 100) (hd : d < 100) :
    parseWith (pad2 yy ++ '-' :: (pad2 m ++ '-' :: pad2 d)) tmplY2 none none
      = .error .missingCentury := by
  have hmm := y2Match yy m d hyy hm hd
  unfold parseWith fromString
  rw [hmm]
  rfl

/-- Witness for C7 on the subject 76-07-04. -/
theorem two_digit_year_without_century_witness :
    parseWith (pad2 76 ++ '-' :: (pad2 7 ++ '-' :: pad2 4)) tmplY2 none none
      = .error .missingCentury :=
  two_digit_year_without_century 76 7 4 (by decide) (by decide) (by decide)

/-- Claim C6: parsing against a template holding both the 4-digit and the
2-digit year token with a century supplied succeeds with the common year
when the two groups resolve to the same year, and fails with an ambiguity
error when they resolve to different years (either at the
4-digit-year-versus-century distance check or at the reconciliation of
the two candidates). -/
theorem year_reconciliation (y m d yy : Nat) (c : Int)
    (hv : ValidFields ⟨y, m, d, 0, 0, 0, 0⟩) (hyy : yy < 100) :
    ((y : Int) = c + yy →
      parseWith (pad4 y ++ '-' :: (pad2 m ++ '-' :: (pad2 d ++ ' ' :: pad2 yy)))
          tmplY4Y2 (some c) (some "utc")
        = .ok { viewFields := ⟨y, m, d, 0, 0, 0, 0⟩, tzName := "utc",
                utcTS := (tsOfFields ⟨y, m, d, 0, 0, 0, 0⟩ : Int) - offUsec "utc",
                cache := none })
    ∧ (¬ (y : Int) = c + yy →
      parseWith (pad4 y ++ '-' :: (pad2 m ++ '-' :: (pad2 d ++ ' ' :: pad2 yy)))
          tmplY4Y2 (some c) (some "utc")
        = .error .ambiguous) := by
  have hv' := hv
  obtain ⟨hy1, hy2, hm1, hm2, hd1, hd2, hh2, hmi2, hs2, hus2⟩ := hv'
  simp only at hy1 hy2 hm1 hm2 hd1 hd2 hh2 hmi2 hs2 hus2
  have hdim : daysInMonth y m ≤ 31 := by
    unfold daysInMonth
    split_ifs <;> omega
  have hmm := y4y2Match y m d yy (by omega) (by omega) (by omega) hyy
  have hstep : parseWith (pad4 y ++ '-' :: (pad2 m ++ '-' :: (pad2 d ++ ' ' :: pad2 yy)))
        tmplY4Y2 (some c) (some "utc")
      = fromGroups [("_76", pad2 yy), ("_04", pad2 d), ("_07", pad2 m), ("_1776", pad4 y)]
          (some c) none none none (some 0) (some 0) (some 0) (some 0) (some "utc") none := by
    unfold parseWith fromString
    rw [hmm]
    rfl
  constructor
  · intro hEq
    have hnear : ¬ (((strToNat (pad4 y) : Int)) - c).natAbs > 100 := by
      rw [strToNat_pad4 (by omega)]
      omega
    have hsc : scrub [some ((strToNat (pad4 y) : Int)), some (c + (strToNat (pad2 yy) : Int))]
        = .ok (some ((strToNat (pad4 y) : Int))) := by
      refine scrub_pair_eq _ _ ?_
      rw [strToNat_pad4 (by omega), strToNat_pad2 hyy]
      exact hEq
    rw [hstep]
    unfold fromGroups
    rw [show grpGet [("_76", pad2 yy), ("_04", pad2 d), ("_07", pad2 m), ("_1776", pad4 y)]
        "_1776" = some (pad4 y) from rfl,
      show grpGet [("_76", pad2 yy), ("_04", pad2 d), ("_07", pad2 m), ("_1776", pad4 y)]
        "_76" = some (pad2 yy) from rfl,
      processYear_both (pad4 y) (pad2 yy) c hnear]
    simp only [ebind_ok]
    rw [hsc]
    simp only [ebind_ok]
    show whenInit (some ((strToNat (pad4 y) : Int))) (some ((strToNat (pad2 m) : Int)))
        (some ((strToNat (pad2 d) : Int))) (some 0) (some 0) (some 0) (some 0)
        (some "utc") none = _
    rw [strToNat_pad4 (by omega), strToNat_pad2 (by omega), strToNat_pad2 (by omega)]
    exact whenInit_valid y m d 0 0 0 0 "utc" 0 hv rfl
  · intro hne
    rw [hstep]
    unfold fromGroups
    rw [show grpGet [("_76", pad2 yy), ("_04", pad2 d), ("_07", pad2 m), ("_1776", pad4 y)]
        "_1776" = some (pad4 y) from rfl,
      show grpGet [("_76", pad2 yy), ("_04", pad2 d), ("_07", pad2 m), ("_1776", pad4 y)]
        "_76" = some (pad2 yy) from rfl]
    by_cases hfar : ((strToNat (pad4 y) : Int) - c).natAbs > 100
    · rw [processYear_far (pad4 y) (pad2 yy) c hfar]
      rfl
    · rw [processYear_both (pad4 y) (pad2 yy) c hfar]
      simp only [ebind_ok]
      have hsc : scrub [some ((strToNat (pad4 y) : Int)),
          some (c + (strToNat (pad2 yy) : Int))] = .error .ambiguous := by
        refine scrub_pair_ne _ _ ?_
        rw [strToNat_pad4 (by omega), strToNat_pad2 hyy]
        exact hne
      rw [hsc]
      rfl

/-- Witness for C6 at year 2015 against century 2000 with decade 15. -/
theorem year_reconciliation_witness :
    parseWith (pad4 2015 ++ '-' :: (pad2 6 ++ '-' :: (pad2 7 ++ ' ' :: pad2 15)))
        tmplY4Y2 (some 2000) (some "utc")
      = .ok { viewFields := ⟨2015, 6, 7, 0, 0, 0, 0⟩, tzName := "utc",
              utcTS := (tsOfFields ⟨2015, 6, 7, 0, 0, 0, 0⟩ : Int) - offUsec "utc",
              cache := none } :=
  (year_reconciliation 2015 6 7 15 2000 (by decide) (by decide)).1 (by norm_num)

/-- Claim C10: hour processing reconciles the meridian groups to a single
offset, 12 for the PM spelling and 0 for the AM spelling, and adds the
offset to whatever the 12-hour group matched, with no special case for
hour 12 itself: a subject meaning 12 PM yields the 24-hour value 24,
making the construction of the instant fail with the value error, and a
subject meaning 12 AM yields hour 12. -/
theorem meridian_offset_no_special_case :
    (∀ s : List Char,
      processHour none (some s) none (some "pm".toList) none none none
        = .ok (none, some (12 + (strToNat s : Int)), none))
    ∧ (∀ s : List Char,
      processHour none (some s) none (some "am".toList) none none none
        = .ok (none, some (0 + (strToNat s : Int)), none))
    ∧ parseWith "1776-07-04 12pm".toList tmplHourPm none (some "utc")
        = .error .invalidValue
    ∧ parseWith "1776-07-04 12am".toList tmplHourPm none (some "utc")
        = .ok { viewFields := ⟨1776, 7, 4, 12, 0, 0, 0⟩, tzName := "utc",
                utcTS := (tsOfFields ⟨1776, 7, 4, 12, 0, 0, 0⟩ : Int) - offUsec "utc",
                cache := none } := by
  refine ⟨fun s => rfl, fun s => rfl, ?_, ?_⟩ <;> decide

end WhenLib
